import Mathlib

/-!
# Verification of the cdnscli TUI core

A shallow embedding, in Lean 4, of the interactive TUI of the `cdnscli`
DNS management tool: the popup editor (`internal/ui/popup`), its field
validators, and the main bubbletea model (`internal/ui/model.go`).

Conventions of the embedding:
* Go strings are Lean `String`s (byte-level slicing in the Go source is
  modelled at character granularity; all strings the verified properties
  touch are ASCII, where the two coincide).
* Go slices/maps become `List`s / association lists.
* The bubbletea message loop becomes an explicit step function
  `Model → Msg → Model × Cmd`; deferred provider-calling commands
  (`tea.Cmd` closures) become `Cmd` constructors, and their bodies become
  explicit functions from the provider's response to the mutated model and
  the follow-up message they enqueue.
-/

namespace Cdnscli

/-! ## Character-list utilities

Helpers used to model Go's `strings.Split`-style processing and the
hostname regular expression. `splitOnChar` splits a character list at every
occurrence of a separator (like `strings.Split`, it yields `n+1` parts for
`n` separators, and a single part for the empty input). `joinParts` is its
inverse, interleaving one separator between parts. -/

def splitOnChar (sep : Char) : List Char → List (List Char)
  | [] => [[]]
  | a :: rest =>
    if a = sep then [] :: splitOnChar sep rest
    else
      match splitOnChar sep rest with
      | [] => [[a]]
      | p :: ps => (a :: p) :: ps

def joinParts (sep : Char) : List (List Char) → List Char
  | [] => []
  | [p] => p
  | p :: q :: ps => p ++ sep :: joinParts sep (q :: ps)

theorem splitOnChar_ne_nil (sep : Char) (l : List Char) :
    splitOnChar sep l ≠ [] := by
  induction l with
  | nil => simp [splitOnChar]
  | cons a rest ih =>
    simp only [splitOnChar]
    split
    · simp
    · cases h : splitOnChar sep rest with
      | nil => simp
      | cons p ps => simp

theorem joinParts_cons (sep : Char) (a : Char) (h : List Char)
    (t : List (List Char)) :
    joinParts sep ((a :: h) :: t) = a :: joinParts sep (h :: t) := by
  cases t with
  | nil => simp [joinParts]
  | cons t0 t1 => simp [joinParts]

theorem joinParts_splitOnChar (sep : Char) (l : List Char) :
    joinParts sep (splitOnChar sep l) = l := by
  induction l with
  | nil => simp [splitOnChar, joinParts]
  | cons a rest ih =>
    simp only [splitOnChar]
    split
    · rename_i ha
      cases h : splitOnChar sep rest with
      | nil => exact absurd h (splitOnChar_ne_nil sep rest)
      | cons p ps =>
        rw [h] at ih
        simp [joinParts, ih, ha]
    · rename_i ha
      cases h : splitOnChar sep rest with
      | nil => exact absurd h (splitOnChar_ne_nil sep rest)
      | cons p ps =>
        rw [h] at ih
        simp only [joinParts_cons, ih]

theorem splitOnChar_append_left (sep : Char) (p l : List Char)
    (hp : sep ∉ p) (hd : List Char) (tl : List (List Char))
    (h : splitOnChar sep l = hd :: tl) :
    splitOnChar sep (p ++ l) = (p ++ hd) :: tl := by
  induction p with
  | nil => simpa using h
  | cons a p' ih =>
    have ha : a ≠ sep := by
      intro hc; exact hp (by simp [hc])
    have hp' : sep ∉ p' := fun hc => hp (by simp [hc])
    have hrec := ih hp'
    simp only [List.cons_append, splitOnChar, if_neg ha]
    rw [show p'.append l = p' ++ l from rfl, hrec]

theorem splitOnChar_joinParts (sep : Char) (parts : List (List Char))
    (hne : parts ≠ []) (hfree : ∀ p ∈ parts, sep ∉ p) :
    splitOnChar sep (joinParts sep parts) = parts := by
  induction parts with
  | nil => exact absurd rfl hne
  | cons p ps ih =>
    cases ps with
    | nil =>
      simp only [joinParts]
      have h0 : splitOnChar sep ([] : List Char) = [] :: [] := by
        simp [splitOnChar]
      have := splitOnChar_append_left sep p [] (hfree p (by simp)) [] [] h0
      simpa using this
    | cons q qs =>
      have hrec : splitOnChar sep (joinParts sep (q :: qs)) = q :: qs :=
        ih (by simp) (fun x hx => hfree x (by simp [hx]))
      have hstep : splitOnChar sep (sep :: joinParts sep (q :: qs)) =
          [] :: q :: qs := by
        simp [splitOnChar, hrec]
      have := splitOnChar_append_left sep p (sep :: joinParts sep (q :: qs))
        (hfree p (by simp)) [] (q :: qs) hstep
      simpa [joinParts] using this

theorem splitOnChar_append_sep (sep : Char) (l : List Char) :
    splitOnChar sep (l ++ [sep]) = splitOnChar sep l ++ [[]] := by
  induction l with
  | nil => simp [splitOnChar]
  | cons a rest ih =>
    simp only [List.cons_append, splitOnChar]
    split
    · simp [ih]
    · cases h : splitOnChar sep rest with
      | nil => exact absurd h (splitOnChar_ne_nil sep rest)
      | cons p ps => simp [h, ih]

/-! ## Field validators (`internal/ui/popup`, part_001 lines 561-583)

`isHostname` embeds:

```go
var hostnameRe = regexp.MustCompile(
  `^(?i:[a-z0-9](?:[a-z0-9-]{0,61}[a-z0-9])?)` ++
  `(?:\.(?i:[a-z0-9](?:[a-z0-9-]{0,61}[a-z0-9])?))*\.?$`)

func isHostname(s string) bool \x7b
    if len(s) == 0 || len(s) > 253 \x7b return false \x7d
    return hostnameRe.MatchString(s)
\x7d
```

A string matches the regex exactly when, after removing a single optional
trailing dot, it splits on `.` into a non-empty sequence of labels, each
matching `[a-z0-9](?:[a-z0-9-]{0,61}[a-z0-9])?` case-insensitively: 1-63
characters drawn from ASCII alphanumerics and hyphen, with alphanumeric
first and last character. `hostnameMatch` implements that split-based
reading of the regex; `splitOnChar`/`joinParts` lemmas above connect it to
the declarative decomposition used in `HostnameGrammar`. Go's `len` counts
bytes while `String.length` counts characters; the two versions agree on
every string, because any string whose character count and byte count
differ contains a non-ASCII character and is rejected by both. -/

def isAlnumGo (c : Char) : Bool :=
  ('a' ≤ c && c ≤ 'z') || ('A' ≤ c && c ≤ 'Z') || ('0' ≤ c && c ≤ '9')

def isLabelChar (c : Char) : Bool :=
  isAlnumGo c || c = '-'

def validLabel (l : List Char) : Bool :=
  decide (1 ≤ l.length) && decide (l.length ≤ 63) &&
    l.all isLabelChar && isAlnumGo (l.headD '-') && isAlnumGo (l.getLastD '-')

def stripTrailingEmpty (parts : List (List Char)) : List (List Char) :=
  if parts.getLast? = some [] then parts.dropLast else parts

def hostnameMatch (cs : List Char) : Bool :=
  !(stripTrailingEmpty (splitOnChar '.' cs)).isEmpty &&
    (stripTrailingEmpty (splitOnChar '.' cs)).all validLabel

def isHostname (s : String) : Bool :=
  if s.length = 0 || 253 < s.length then false
  else hostnameMatch s.data

def isNumber (s : String) : Bool :=
  s.data.all (fun r => '0' ≤ r && r ≤ '9') && decide (0 < s.length)

/-! Character-level models of `strings.ToLower`, `strings.ToUpper` and
`strings.TrimSpace`. The Go functions are Unicode-aware; every string the
code compares after casing ("true", "type", "proxied", RR type names, …)
is ASCII, where these agree. They are written over `List Char` so that
concrete inputs evaluate by kernel reduction. -/

def goCharToLower (c : Char) : Char :=
  if 'A' ≤ c ∧ c ≤ 'Z' then Char.ofNat (c.toNat + 32) else c

def goCharToUpper (c : Char) : Char :=
  if 'a' ≤ c ∧ c ≤ 'z' then Char.ofNat (c.toNat - 32) else c

def goToLower (s : String) : String :=
  String.mk (s.data.map goCharToLower)

def goToUpper (s : String) : String :=
  String.mk (s.data.map goCharToUpper)

def goTrim (s : String) : String :=
  String.mk
    (((s.data.dropWhile Char.isWhitespace).reverse.dropWhile
      Char.isWhitespace).reverse)

/-- The hostname grammar as the specification states it: dot-separated
labels of 1-63 alphanumeric/hyphen characters with no leading or trailing
hyphen, an optional trailing dot, and total length at most 253. -/
def SpecLabel (l : List Char) : Prop :=
  1 ≤ l.length ∧ l.length ≤ 63 ∧
    (∀ c ∈ l, isAlnumGo c = true ∨ c = '-') ∧
    l.headD '-' ≠ '-' ∧ l.getLastD '-' ≠ '-'

def HostnameGrammar (s : String) : Prop :=
  s.length ≤ 253 ∧
    ∃ labels : List (List Char), labels ≠ [] ∧
      (∀ l ∈ labels, SpecLabel l) ∧
      (s.data = joinParts '.' labels ∨ s.data = joinParts '.' labels ++ ['.'])

theorem validLabel_iff_specLabel (l : List Char) :
    validLabel l = true ↔ SpecLabel l := by
  unfold validLabel SpecLabel
  constructor
  · intro h
    simp only [Bool.and_eq_true, decide_eq_true_eq, List.all_eq_true] at h
    obtain ⟨⟨⟨⟨h1, h2⟩, h3⟩, h4⟩, h5⟩ := h
    refine ⟨h1, h2, ?_, ?_, ?_⟩
    · intro c hc
      have := h3 c hc
      simp only [isLabelChar, Bool.or_eq_true, decide_eq_true_eq] at this
      exact this
    · intro hc
      rw [hc] at h4
      simp [isAlnumGo] at h4
    · intro hc
      rw [hc] at h5
      simp [isAlnumGo] at h5
  · rintro ⟨h1, h2, h3, h4, h5⟩
    have hne : l ≠ [] := by
      intro hc; rw [hc] at h1; simp at h1
    have hhead : l.headD '-' ∈ l := by
      cases l with
      | nil => exact absurd rfl hne
      | cons a t => simp
    have hlast : l.getLastD '-' ∈ l := by
      cases l with
      | nil => exact absurd rfl hne
      | cons a t =>
        simp [List.getLastD_eq_getLast?, List.getLast?_eq_getLast (a :: t) (by simp)]
    simp only [Bool.and_eq_true, decide_eq_true_eq, List.all_eq_true]
    refine ⟨⟨⟨⟨h1, h2⟩, ?_⟩, ?_⟩, ?_⟩
    · intro c hc
      rcases h3 c hc with h | h
      · simp [isLabelChar, h]
      · simp [isLabelChar, h]
    · rcases h3 _ hhead with h | h
      · exact h
      · exact absurd h h4
    · rcases h3 _ hlast with h | h
      · exact h
      · exact absurd h h5

theorem specLabel_dot_free {l : List Char} (h : SpecLabel l) : '.' ∉ l := by
  intro hc
  rcases h.2.2.1 '.' hc with h' | h'
  · simp [isAlnumGo] at h'
  · simp at h'

theorem specLabel_ne_nil {l : List Char} (h : SpecLabel l) : l ≠ [] := by
  intro hc
  have := h.1
  rw [hc] at this
  simp at this

theorem joinParts_append_nil (sep : Char) (parts : List (List Char))
    (h : parts ≠ []) :
    joinParts sep (parts ++ [[]]) = joinParts sep parts ++ [sep] := by
  induction parts with
  | nil => exact absurd rfl h
  | cons p ps ih =>
    cases ps with
    | nil => simp [joinParts]
    | cons q qs =>
      have ih' := ih (by simp)
      calc joinParts sep ((p :: q :: qs) ++ [[]])
          = p ++ sep :: joinParts sep ((q :: qs) ++ [[]]) := by
            simp [joinParts]
        _ = p ++ sep :: (joinParts sep (q :: qs) ++ [sep]) := by rw [ih']
        _ = joinParts sep (p :: q :: qs) ++ [sep] := by simp [joinParts]


theorem joinParts_ne_nil_of_head (sep : Char) (l0 : List Char)
    (rest : List (List Char)) (h : l0 ≠ []) :
    joinParts sep (l0 :: rest) ≠ [] := by
  cases rest with
  | nil => simpa [joinParts] using h
  | cons q qs => simp [joinParts, h]

theorem isHostname_iff_grammar (s : String) :
    isHostname s = true ↔ HostnameGrammar s := by
  have hlen : s.length = s.data.length := rfl
  constructor
  · intro h
    unfold isHostname at h
    split at h
    · exact absurd h (by simp)
    · rename_i hcond
      simp only [Bool.or_eq_true, decide_eq_true_eq, not_or] at hcond
      unfold hostnameMatch stripTrailingEmpty at h
      simp only [Bool.and_eq_true, Bool.not_eq_true', List.isEmpty_eq_false,
        List.all_eq_true] at h
      have hlen253 : s.length ≤ 253 := by
        rcases hcond with ⟨h1, h2⟩
        omega
      refine ⟨hlen253, ?_⟩
      have hjoin : joinParts '.' (splitOnChar '.' s.data) = s.data :=
        joinParts_splitOnChar '.' s.data
      by_cases hdot : (splitOnChar '.' s.data).getLast? = some []
      · rw [if_pos hdot] at h
        have hpne : splitOnChar '.' s.data ≠ [] := splitOnChar_ne_nil '.' s.data
        have hdne : (splitOnChar '.' s.data).dropLast ≠ [] := by
          intro hc
          rw [hc] at h
          simpa using h.1
        have hgl : (splitOnChar '.' s.data).getLast hpne = [] := by
          have heq := List.getLast?_eq_getLast (splitOnChar '.' s.data) hpne
          rw [heq] at hdot
          exact Option.some.inj hdot
        have hsplit : (splitOnChar '.' s.data).dropLast ++ [[]] =
            splitOnChar '.' s.data := by
          have hd := List.dropLast_append_getLast hpne
          rwa [hgl] at hd
        refine ⟨(splitOnChar '.' s.data).dropLast, hdne, ?_, Or.inr ?_⟩
        · intro l hl
          exact (validLabel_iff_specLabel l).mp (h.2 l hl)
        · calc s.data = joinParts '.' (splitOnChar '.' s.data) := hjoin.symm
            _ = joinParts '.' ((splitOnChar '.' s.data).dropLast ++ [[]]) := by
                rw [hsplit]
            _ = joinParts '.' (splitOnChar '.' s.data).dropLast ++ ['.'] :=
                joinParts_append_nil '.' _ hdne
      · rw [if_neg hdot] at h
        have hpne : splitOnChar '.' s.data ≠ [] := splitOnChar_ne_nil '.' s.data
        refine ⟨splitOnChar '.' s.data, hpne, ?_, Or.inl hjoin.symm⟩
        intro l hl
        exact (validLabel_iff_specLabel l).mp (h.2 l hl)
  · rintro ⟨h253, labels, hne, hval, hdisj⟩
    have hfree : ∀ p ∈ labels, '.' ∉ p :=
      fun p hp => specLabel_dot_free (hval p hp)
    obtain ⟨l0, rest, rfl⟩ := List.exists_cons_of_ne_nil hne
    have hl0 : l0 ≠ [] := specLabel_ne_nil (hval l0 (by simp))
    have hdata_ne : s.data ≠ [] := by
      rcases hdisj with h | h
      · rw [h]; exact joinParts_ne_nil_of_head '.' l0 rest hl0
      · rw [h]; simp
    have hne0 : s.length ≠ 0 := by
      rw [hlen]
      intro hc
      exact hdata_ne (List.length_eq_zero.mp hc)
    unfold isHostname
    rw [if_neg (by simp only [Bool.or_eq_true, decide_eq_true_eq]; omega)]
    unfold hostnameMatch stripTrailingEmpty
    rcases hdisj with h | h
    · have hsplit : splitOnChar '.' s.data = l0 :: rest := by
        rw [h]; exact splitOnChar_joinParts '.' _ hne hfree
      have hglast : (l0 :: rest).getLast (by simp) ≠ [] := by
        have hmem := List.getLast_mem (l := l0 :: rest) (by simp)
        exact specLabel_ne_nil (hval _ hmem)
      have hdot : ¬((l0 :: rest).getLast? = some []) := by
        rw [List.getLast?_eq_getLast _ (by simp)]
        simp only [Option.some.injEq]
        exact hglast
      rw [hsplit, if_neg hdot]
      simp only [Bool.and_eq_true, Bool.not_eq_true', List.isEmpty_eq_false,
        List.all_eq_true]
      exact ⟨by simp, fun l hl => (validLabel_iff_specLabel l).mpr (hval l hl)⟩
    · have hsplit : splitOnChar '.' s.data = (l0 :: rest) ++ [[]] := by
        rw [h, splitOnChar_append_sep, splitOnChar_joinParts '.' _ hne hfree]
      rw [hsplit]
      rw [if_pos (by
        rw [show l0 :: rest ++ [[]] = (l0 :: rest) ++ [[]] from rfl,
          List.getLast?_concat])]
      simp only [List.dropLast_concat, Bool.and_eq_true, Bool.not_eq_true',
        List.isEmpty_eq_false, List.all_eq_true]
      exact ⟨by simp, fun l hl => (validLabel_iff_specLabel l).mpr (hval l hl)⟩

set_option maxRecDepth 4000 in
/-- **C7**: the hostname validator `isHostname` accepts exactly the strings
matching the hostname grammar (dot-separated labels of 1-63
alphanumeric/hyphen characters with no leading or trailing hyphen, optional
trailing dot, total length at most 253), and in particular accepts
"www.example.com", rejects "-bad.example.com", and rejects a 254-character
string of 'a'. -/
theorem c7_isHostname_exactly_grammar :
    (∀ s : String, isHostname s = true ↔ HostnameGrammar s) ∧
    isHostname "www.example.com" = true ∧
    isHostname "-bad.example.com" = false ∧
    isHostname (String.mk (List.replicate 254 'a')) = false := by
  refine ⟨isHostname_iff_grammar, ?_, ?_, ?_⟩
  · decide
  · decide
  · decide

/-! ## IP-literal validators (`internal/ui/popup`, part_001 lines 575-583)

```go
func isIPv4(s string) bool \x7b
    ip := net.ParseIP(s)
    return ip != nil && ip.To4() != nil
\x7d

func isIPv6(s string) bool \x7b
    ip := net.ParseIP(s)
    return ip != nil && ip.To16() != nil && ip.To4() == nil
\x7d
```

`net.ParseIP` is a Go standard-library collaborator; we model its accept
set and value map. `ParseIP` scans the string for the first `.` or `:`:
a `.` first routes to the dotted-quad parser (exactly four dot-separated
decimal fields, each 0-255, no leading zeros), a `:` first routes to the
IPv6 parser (colon-separated groups of 1-4 hex digits, at most one `::`
which must compress at least one zero group, an optional embedded
dotted-quad occupying the final 32 bits, 128 bits total; `%` zones are
rejected by ParseIP). `To4` is non-nil exactly for dotted-quad results and
IPv4-mapped 16-byte addresses (`::ffff:a.b.c.d`); `To16` is non-nil for
every successfully parsed address. -/

def isDigitGo (c : Char) : Bool := '0' ≤ c && c ≤ '9'

def decVal (l : List Char) : Nat :=
  l.foldl (fun a c => a * 10 + (c.toNat - '0'.toNat)) 0

def v4Field (l : List Char) : Option Nat :=
  if l.isEmpty then none
  else if !(l.all isDigitGo) then none
  else if 1 < l.length ∧ l.headD ' ' = '0' then none
  else if decVal l ≤ 255 then some (decVal l) else none

def parseIPv4 (cs : List Char) : Option (List Nat) :=
  match splitOnChar '.' cs with
  | [a, b, c, d] =>
    match v4Field a, v4Field b, v4Field c, v4Field d with
    | some x, some y, some z, some w => some [x, y, z, w]
    | _, _, _, _ => none
  | _ => none

def hexVal (c : Char) : Option Nat :=
  if '0' ≤ c ∧ c ≤ '9' then some (c.toNat - '0'.toNat)
  else if 'a' ≤ c ∧ c ≤ 'f' then some (c.toNat - 'a'.toNat + 10)
  else if 'A' ≤ c ∧ c ≤ 'F' then some (c.toNat - 'A'.toNat + 10)
  else none

def hexGroupVal (g : List Char) : Option Nat :=
  if 1 ≤ g.length ∧ g.length ≤ 4 ∧ g.all (fun c => (hexVal c).isSome) then
    some (g.foldl (fun a c => a * 16 + (hexVal c).getD 0) 0)
  else none

def parseHexGroups : List (List Char) → Option (List Nat)
  | [] => some []
  | g :: gs =>
    match hexGroupVal g, parseHexGroups gs with
    | some v, some bs => some (v / 256 :: v % 256 :: bs)
    | _, _ => none

/-- The colon-separated parts of one side of a (possibly elided) IPv6
address; the empty side contributes no groups. -/
def sideParts (cs : List Char) : List (List Char) :=
  if cs.isEmpty then [] else splitOnChar ':' cs

/-- Parse a run of hex groups whose final part may instead be an embedded
dotted-quad (detected, as in Go, by the presence of a `.`). -/
def parseTail (parts : List (List Char)) : Option (List Nat) :=
  match parts.getLast? with
  | none => some []
  | some last =>
    if '.' ∈ last then
      match parseHexGroups parts.dropLast, parseIPv4 last with
      | some hb, some vb => some (hb ++ vb)
      | _, _ => none
    else parseHexGroups parts

/-- Split at the first occurrence of `::`, if any. -/
def findEllipsis : List Char → Option (List Char × List Char)
  | [] => none
  | [_] => none
  | a :: b :: rest =>
    if a = ':' ∧ b = ':' then some ([], rest)
    else (findEllipsis (b :: rest)).map (fun p => (a :: p.1, p.2))

def parseIPv6 (cs : List Char) : Option (List Nat) :=
  if '%' ∈ cs then none
  else
    match findEllipsis cs with
    | none =>
      match parseTail (sideParts cs) with
      | some bs => if bs.length = 16 then some bs else none
      | none => none
    | some (l, r) =>
      match parseHexGroups (sideParts l), parseTail (sideParts r) with
      | some lb, some rb =>
        if lb.length + rb.length ≤ 14 then
          some (lb ++ List.replicate (16 - lb.length - rb.length) 0 ++ rb)
        else none
      | _, _ => none

/-- The result of a successful `net.ParseIP`: a dotted-quad (stored by Go
as an IPv4-mapped 16-byte slice) or a 16-byte IPv6 address. -/
inductive GoIP where
  | v4 (bytes : List Nat)
  | v6 (bytes : List Nat)
deriving DecidableEq, Repr

/-- `net.ParseIP`: dispatch on the first `.` or `:` encountered. -/
def goParseIPDispatch : List Char → Option Bool
  | [] => none
  | c :: rest =>
    if c = '.' then some true
    else if c = ':' then some false
    else goParseIPDispatch rest

def goParseIP (s : String) : Option GoIP :=
  match goParseIPDispatch s.data with
  | some true => (parseIPv4 s.data).map GoIP.v4
  | some false => (parseIPv6 s.data).map GoIP.v6
  | none => none

/-- `IP.To4`: the 4-byte form, defined for dotted-quad results and
IPv4-mapped (`::ffff:a.b.c.d`) 16-byte addresses. -/
def goTo4 : GoIP → Option (List Nat)
  | .v4 b => some b
  | .v6 b =>
    if b.take 10 = List.replicate 10 0 ∧ b.getD 10 0 = 255 ∧ b.getD 11 0 = 255
    then some (b.drop 12) else none

/-- `IP.To16`: defined (non-nil) for every valid parse result. -/
def goTo16 : GoIP → Option (List Nat)
  | .v4 b => some (List.replicate 10 0 ++ [255, 255] ++ b)
  | .v6 b => some b

def isIPv4 (s : String) : Bool :=
  match goParseIP s with
  | none => false
  | some ip => (goTo4 ip).isSome

def isIPv6 (s : String) : Bool :=
  match goParseIP s with
  | none => false
  | some ip => (goTo16 ip).isSome && (goTo4 ip).isNone

set_option maxRecDepth 4000 in
/-- **C8**: the IP-literal validators discriminate address families: no
string satisfies both `isIPv4` and `isIPv6`, and concretely
`isIPv4 "192.0.2.1" = true`, `isIPv6 "192.0.2.1" = false`,
`isIPv6 "2001:db8::1" = true`, `isIPv4 "2001:db8::1" = false`. -/
theorem c8_ip_family_discrimination :
    (∀ s : String, ¬(isIPv4 s = true ∧ isIPv6 s = true)) ∧
    isIPv4 "192.0.2.1" = true ∧ isIPv6 "192.0.2.1" = false ∧
    isIPv6 "2001:db8::1" = true ∧ isIPv4 "2001:db8::1" = false := by
  refine ⟨?_, by decide, by decide, by decide, by decide⟩
  rintro s ⟨h4, h6⟩
  unfold isIPv4 at h4
  unfold isIPv6 at h6
  cases hp : goParseIP s with
  | none =>
    rw [hp] at h4
    simp at h4
  | some ip =>
    rw [hp] at h4 h6
    simp only [Bool.and_eq_true, Option.isNone_iff_eq_none] at h6
    simp only [h6.2, Option.isSome_none] at h4
    exact absurd h4 (by simp)

/-! ## Data model (`internal/models`, spec section 3)

The `models` package is consumed throughout the UI; its two record types
carry exactly the fields used by `model.go` and the providers. -/

structure DNSRecord where
  id : String
  name : String
  ttl : Int
  rtype : String
  proxied : Bool
  content : String
deriving DecidableEq, Repr

structure Zone where
  id : String
  name : String
  nameServers : List String
  status : String
deriving DecidableEq, Repr

/-! ## Messages and keys

The bubbletea `tea.Msg` values that flow through the UI, as a closed sum:
the runtime messages (`tea.KeyMsg`, `tea.WindowSizeMsg`, spinner ticks),
the custom messages declared in `model.go`, and the messages emitted by the
popup package. `tea.KeyMsg` is modelled by its key type plus the rune
payload; `keyString` mirrors `tea.KeyMsg.String()` for the keys the code
switches on. -/

inductive KeyType where
  | up | down | left | right | enter | esc | space | tab | shiftTab
  | ctrlS | ctrlC | ctrlD | ctrlH | backspace | delete | runes
deriving DecidableEq, Repr

structure KeyMsg where
  ktype : KeyType
  runes : String
deriving DecidableEq, Repr

def keyString (k : KeyMsg) : String :=
  match k.ktype with
  | .up => "up"
  | .down => "down"
  | .left => "left"
  | .right => "right"
  | .enter => "enter"
  | .esc => "esc"
  | .space => " "
  | .tab => "tab"
  | .shiftTab => "shift+tab"
  | .ctrlS => "ctrl+s"
  | .ctrlC => "ctrl+c"
  | .ctrlD => "ctrl+d"
  | .ctrlH => "ctrl+h"
  | .backspace => "backspace"
  | .delete => "delete"
  | .runes => k.runes

inductive Msg where
  | key (k : KeyMsg)
  | windowSize (width height : Int)
  | spinnerTick
  | dataLoading
  | updateRRSetRequest
  | dataLoaded
  | recordCreated (record : DNSRecord)
  | switchTableToRRSet
  | editRow (row : List String)
  | saveRow
  | cancelEdit
  | saveAction (fields : List String)
  | saveNameServers (servers : List String)
  | confirmDelete
  | cancel
deriving DecidableEq, Repr

/-! ## Popup editor model (`internal/ui/popup`, part_001)

`popup.Model` with its modes (`"" = field-form`, `"nslist"`, `"confirm"`)
and sub-editor flags. The Go struct's `SaveAction`/`CancelMsg` closure
fields are omitted: `Update` never reads them (its Ctrl+S and Esc branches
construct `SaveActionMsg`/`CancelMsg` directly), and closures carry no
state of their own. The overlay pointer `ov` is render-only and omitted. -/

structure PopupModel where
  columnNames : List String
  fields : List String
  cursor : Nat
  charPos : Nat
  isActive : Bool
  title : String
  inBoolSelect : Bool
  boolIndex : Nat
  inTextEdit : Bool
  textBuf : String
  textErr : String
  inTypeSelect : Bool
  typeIndex : Nat
  mode : String
  listValues : List String
  listCursor : Nat
  confirmIndex : Nat
deriving DecidableEq, Repr

/-- Go zero values for every popup field; each constructor overrides the
fields it sets. -/
def popupZero : PopupModel where
  columnNames := []
  fields := []
  cursor := 0
  charPos := 0
  isActive := false
  title := ""
  inBoolSelect := false
  boolIndex := 0
  inTextEdit := false
  textBuf := ""
  textErr := ""
  inTypeSelect := false
  typeIndex := 0
  mode := ""
  listValues := []
  listCursor := 0
  confirmIndex := 0

/-- `popup.New`. -/
def popupNew (columnNames fields : List String) (title : String) :
    PopupModel :=
  { popupZero with
      columnNames := columnNames
      fields := fields
      cursor := 0
      charPos := 0
      isActive := true
      title := title }

/-- `for len(vals) < 2 \x7b vals = append(vals, "") \x7d` -/
def padToTwo (vals : List String) : List String :=
  vals ++ List.replicate (2 - vals.length) ""

/-- `popup.NewNameServersEditor`. -/
def NewNameServersEditor (initial : List String) (title : String) :
    PopupModel :=
  { popupZero with
      mode := "nslist"
      listValues := padToTwo initial
      listCursor := 0
      isActive := true
      title := title }

/-- `popup.NewConfirmDialog`. -/
def NewConfirmDialog (title : String) : PopupModel :=
  { popupZero with
      mode := "confirm"
      confirmIndex := 0
      isActive := true
      title := title }

def supportedTypes : List String :=
  ["A", "AAAA", "CNAME", "TXT", "MX", "NS", "SRV", "CAA"]

/-- `Model.isBoolField`. -/
def PopupModel.isBoolField (m : PopupModel) (i : Nat) : Bool :=
  match m.columnNames.get? i with
  | none => false
  | some name =>
    let n := goToLower name
    n == "proxied" || n == "enabled" || n == "active"

/-- `Model.isTypeField`. -/
def PopupModel.isTypeField (m : PopupModel) (i : Nat) : Bool :=
  match m.columnNames.get? i with
  | none => false
  | some name => goToLower name == "type"

/-- `Model.currentType`: the first field whose column is named "type". -/
def PopupModel.currentType (m : PopupModel) : String :=
  match m.columnNames.enum.find?
      (fun p => goToLower p.2 == "type" && decide (p.1 < m.fields.length)) with
  | some p => m.fields.getD p.1 ""
  | none => ""

/-- `validateInput`. -/
def validateInput (fieldName value rrType : String) : String :=
  if fieldName = "ttl" then
    if !isNumber value then "TTL must be a number in seconds (e.g. 60, 300, 1800)"
    else ""
  else if fieldName = "name" then
    if !isHostname value then "Name must be a valid hostname" else ""
  else if fieldName = "content" then
    if goToUpper rrType = "A" then
      if !isIPv4 value then "Content must be a valid IPv4 address for A record"
      else ""
    else if goToUpper rrType = "AAAA" then
      if !isIPv6 value then "Content must be a valid IPv6 address for AAAA record"
      else ""
    else if goToUpper rrType = "CNAME" ∨ goToUpper rrType = "NS" ∨
        goToUpper rrType = "MX" then
      if !isHostname value then "Content must be a valid hostname" else ""
    else ""
  else ""

/-- Deletion of the current nameserver line: Go's
`append(v[:idx], v[idx+1:]...)` followed by the cursor clamp and the
re-padding loop (lines 173-178 and 229-236 of part_001; the two sites are
identical). The index is in bounds in every reachable state (see
`c10_nslist_cursor_in_bounds`); out of bounds, Go would panic where
`eraseIdx` is the identity. -/
def nsDeleteLine (m : PopupModel) : PopupModel :=
  { m with
      listValues := padToTwo (m.listValues.eraseIdx m.listCursor),
      listCursor :=
        if m.listCursor ≥ (m.listValues.eraseIdx m.listCursor).length ∧
            0 < m.listCursor
        then m.listCursor - 1 else m.listCursor }

/-- The `"nslist"` branch of `popup.Model.Update` while the inline
text-edit overlay is open (part_001, lines 162-200). -/
def nslistTextUpdate (m : PopupModel) (msg : Msg) : PopupModel × Option Msg :=
  match msg with
  | .key k =>
    match k.ktype with
    | .enter =>
      let value := goTrim m.textBuf
      if value ≠ "" ∧ !isHostname value then
        ({ m with textErr := "Name server must be a valid hostname" }, none)
      else if value = "" ∧ 2 < m.listValues.length then
        ({ nsDeleteLine m with inTextEdit := false, textBuf := "", textErr := "" },
          none)
      else
        ({ m with
            listValues := m.listValues.set m.listCursor value,
            inTextEdit := false, textBuf := "", textErr := "" }, none)
    | .esc => ({ m with inTextEdit := false, textBuf := "", textErr := "" }, none)
    | .backspace =>
      if m.textBuf.length > 0 then ({ m with textBuf := m.textBuf.dropRight 1 }, none)
      else (m, none)
    | .ctrlH =>
      if m.textBuf.length > 0 then ({ m with textBuf := m.textBuf.dropRight 1 }, none)
      else (m, none)
    | .runes =>
      if k.runes.length > 0 then ({ m with textBuf := m.textBuf ++ k.runes }, none)
      else (m, none)
    | _ => (m, none)
  | _ => (m, none)

/-- The `"nslist"` branch of `popup.Model.Update` (part_001, lines
160-253): line navigation/editing for the NameServers list. -/
def nslistUpdate (m : PopupModel) (msg : Msg) : PopupModel × Option Msg :=
  if m.inTextEdit then nslistTextUpdate m msg
  else
    match msg with
    | .key k =>
      match k.ktype with
      | .up =>
        if 0 < m.listCursor then ({ m with listCursor := m.listCursor - 1 }, none)
        else (m, none)
      | .down =>
        if m.listCursor = m.listValues.length - 1 then
          if m.listValues.length < 4 then
            ({ m with
                listValues := m.listValues ++ [""],
                listCursor := m.listCursor + 1 }, none)
          else (m, none)
        else ({ m with listCursor := m.listCursor + 1 }, none)
      | .enter =>
        ({ m with
            inTextEdit := true,
            textBuf := m.listValues.getD m.listCursor "", textErr := "" }, none)
      | .ctrlD =>
        if 2 < m.listValues.length then (nsDeleteLine m, none)
        else (m, none)
      | .ctrlS =>
        ({ m with isActive := false },
          some (.saveNameServers ((m.listValues.map goTrim).filter (· ≠ ""))))
      | .esc => ({ m with isActive := false }, some .cancel)
      | _ => (m, none)
    | _ => (m, none)

/-- The `"confirm"` branch of `popup.Model.Update` (part_001, lines
256-285). -/
def confirmUpdate (m : PopupModel) (msg : Msg) : PopupModel × Option Msg :=
  match msg with
  | .key k =>
    match k.ktype with
    | .left | .up =>
      if 0 < m.confirmIndex then ({ m with confirmIndex := 0 }, none)
      else (m, none)
    | .right | .down =>
      if m.confirmIndex < 1 then ({ m with confirmIndex := 1 }, none)
      else (m, none)
    | .enter =>
      if m.confirmIndex = 0 then ({ m with isActive := false }, some .confirmDelete)
      else ({ m with isActive := false }, some .cancel)
    | .esc => ({ m with isActive := false }, some .cancel)
    | _ => (m, none)
  | _ => (m, none)

/-- The field-form text-edit branch of `popup.Model.Update` (part_001,
lines 288-329). -/
def textEditUpdate (m : PopupModel) (msg : Msg) : PopupModel × Option Msg :=
  match msg with
  | .key k =>
    match k.ktype with
    | .enter =>
      if validateInput (goToLower (m.columnNames.getD m.cursor "")) m.textBuf
          (goToUpper m.currentType) ≠ "" then
        ({ m with
            textErr := validateInput (goToLower (m.columnNames.getD m.cursor ""))
              m.textBuf (goToUpper m.currentType) }, none)
      else
        ({ m with
            fields := m.fields.set m.cursor m.textBuf,
            inTextEdit := false, textBuf := "", textErr := "",
            charPos := ((m.fields.set m.cursor m.textBuf).getD m.cursor "").length },
          none)
    | .esc => ({ m with inTextEdit := false, textBuf := "", textErr := "" }, none)
    | .left | .right | .up | .down => (m, none)
    | .backspace =>
      if m.textBuf.length > 0 then ({ m with textBuf := m.textBuf.dropRight 1 }, none)
      else (m, none)
    | .ctrlH =>
      if m.textBuf.length > 0 then ({ m with textBuf := m.textBuf.dropRight 1 }, none)
      else (m, none)
    | .delete => (m, none)
    | .runes =>
      if k.runes.length > 0 then ({ m with textBuf := m.textBuf ++ k.runes }, none)
      else (m, none)
    | _ => (m, none)
  | _ => (m, none)

/-- The type-selection branch of `popup.Model.Update` (part_001, lines
332-355). -/
def typeSelectUpdate (m : PopupModel) (msg : Msg) : PopupModel × Option Msg :=
  match msg with
  | .key k =>
    match k.ktype with
    | .up =>
      if 0 < m.typeIndex then ({ m with typeIndex := m.typeIndex - 1 }, none)
      else (m, none)
    | .down =>
      if m.typeIndex < supportedTypes.length - 1 then
        ({ m with typeIndex := m.typeIndex + 1 }, none)
      else (m, none)
    | .enter =>
      ({ m with
          fields := m.fields.set m.cursor (supportedTypes.getD m.typeIndex ""),
          inTypeSelect := false,
          charPos := ((m.fields.set m.cursor
            (supportedTypes.getD m.typeIndex "")).getD m.cursor "").length }, none)
    | .esc => ({ m with inTypeSelect := false }, none)
    | _ => (m, none)
  | _ => (m, none)

/-- The boolean-selection branch of `popup.Model.Update` (part_001, lines
358-388). -/
def boolSelectUpdate (m : PopupModel) (msg : Msg) : PopupModel × Option Msg :=
  match msg with
  | .key k =>
    match k.ktype with
    | .left | .up =>
      if 0 < m.boolIndex then ({ m with boolIndex := 0 }, none) else (m, none)
    | .right | .down =>
      if m.boolIndex < 1 then ({ m with boolIndex := 1 }, none) else (m, none)
    | .enter =>
      ({ m with
          fields := m.fields.set m.cursor (if m.boolIndex = 0 then "true" else "false"),
          inBoolSelect := false,
          charPos := ((m.fields.set m.cursor
            (if m.boolIndex = 0 then "true" else "false")).getD m.cursor "").length },
        none)
    | .esc => ({ m with inBoolSelect := false }, none)
    | _ => (m, none)
  | _ => (m, none)

/-- The base field-form branch of `popup.Model.Update` (part_001, lines
391-441). -/
def fieldFormUpdate (m : PopupModel) (msg : Msg) : PopupModel × Option Msg :=
  match msg with
  | .key k =>
    match k.ktype with
    | .tab | .down =>
      ({ m with
          cursor := (m.cursor + 1) % m.fields.length,
          charPos := (m.fields.getD ((m.cursor + 1) % m.fields.length) "").length },
        none)
    | .shiftTab | .up =>
      ({ m with
          cursor := (m.cursor + m.fields.length - 1) % m.fields.length,
          charPos := (m.fields.getD
            ((m.cursor + m.fields.length - 1) % m.fields.length) "").length }, none)
    | .left =>
      if 0 < m.charPos then ({ m with charPos := m.charPos - 1 }, none)
      else (m, none)
    | .right =>
      if m.charPos < (m.fields.getD m.cursor "").length then
        ({ m with charPos := m.charPos + 1 }, none)
      else (m, none)
    | .enter =>
      if m.isBoolField m.cursor then
        ({ m with
            inBoolSelect := true,
            boolIndex :=
              if goToLower (m.fields.getD m.cursor "") = "true" then 0 else 1 },
          none)
      else if m.isTypeField m.cursor then
        ({ m with
            inTypeSelect := true,
            typeIndex :=
              (supportedTypes.findIdx?
                (· == goToUpper (m.fields.getD m.cursor ""))).getD 0 }, none)
      else
        ({ m with inTextEdit := true, textBuf := m.fields.getD m.cursor "" }, none)
    | .ctrlS => ({ m with isActive := false }, some (.saveAction m.fields))
    | .esc => ({ m with isActive := false }, some .cancel)
    | _ => (m, none)
  | _ => (m, none)

/-- `popup.Model.Update` (part_001, lines 154-442): the inactive guard,
then dispatch by mode and sub-editor flag, exactly in source order. Returns
the new model together with the message produced by the returned `tea.Cmd`,
if any. Byte-level `textBuf` slicing is modelled at character
granularity. -/
def popupUpdate (m : PopupModel) (msg : Msg) : PopupModel × Option Msg :=
  if !m.isActive then (m, none)
  else if m.mode = "nslist" then nslistUpdate m msg
  else if m.mode = "confirm" then confirmUpdate m msg
  else if m.inTextEdit then textEditUpdate m msg
  else if m.inTypeSelect then typeSelectUpdate m msg
  else if m.inBoolSelect && m.isBoolField m.cursor then boolSelectUpdate m msg
  else fieldFormUpdate m msg

/-! ## Invariants of the nameserver-list editor (claims C2, C10) -/

def applyMsgs (m : PopupModel) (msgs : List Msg) : PopupModel :=
  msgs.foldl (fun p msg => (popupUpdate p msg).1) m

theorem padToTwo_length (l : List String) :
    (padToTwo l).length = max l.length 2 := by
  simp [padToTwo]
  omega

theorem nsDeleteLine_mode (m : PopupModel) :
    (nsDeleteLine m).mode = m.mode := rfl

theorem nsDeleteLine_bounds (m : PopupModel)
    (h3 : 2 < m.listValues.length)
    (hc : m.listCursor < m.listValues.length) :
    (nsDeleteLine m).listValues.length = m.listValues.length - 1 ∧
    (nsDeleteLine m).listCursor < (nsDeleteLine m).listValues.length := by
  have herase : (m.listValues.eraseIdx m.listCursor).length =
      m.listValues.length - 1 := by
    rw [List.length_eraseIdx]
    simp [hc]
  have hlen : (nsDeleteLine m).listValues.length = m.listValues.length - 1 := by
    show (padToTwo (m.listValues.eraseIdx m.listCursor)).length = _
    rw [padToTwo_length, herase]
    omega
  refine ⟨hlen, ?_⟩
  rw [hlen]
  show (if m.listCursor ≥ (m.listValues.eraseIdx m.listCursor).length ∧
      0 < m.listCursor then m.listCursor - 1 else m.listCursor) <
    m.listValues.length - 1
  rw [herase]
  split <;> omega

/-- One step of the `"nslist"` inline text editor preserves the list
invariant and never grows the list. -/
theorem nslistText_step (m : PopupModel) (msg : Msg)
    (hlen : 2 ≤ m.listValues.length)
    (hcur : m.listCursor < m.listValues.length) :
    (nslistTextUpdate m msg).1.mode = m.mode ∧
    2 ≤ (nslistTextUpdate m msg).1.listValues.length ∧
    (nslistTextUpdate m msg).1.listCursor <
      (nslistTextUpdate m msg).1.listValues.length ∧
    (nslistTextUpdate m msg).1.listValues.length ≤ m.listValues.length := by
  cases msg with
  | key k =>
    obtain ⟨kt, kr⟩ := k
    cases kt with
    | enter =>
      simp only [nslistTextUpdate]
      split
      · exact ⟨rfl, hlen, hcur, le_refl _⟩
      · split
        · rename_i hcond
          obtain ⟨hd1, hd2⟩ := nsDeleteLine_bounds m hcond.2 hcur
          refine ⟨rfl, ?_, hd2, ?_⟩
          · show 2 ≤ (nsDeleteLine m).listValues.length
            omega
          · show (nsDeleteLine m).listValues.length ≤ m.listValues.length
            omega
        · refine ⟨rfl, ?_, ?_, ?_⟩ <;> dsimp only <;>
            simp only [List.length_set] <;> omega
    | esc => exact ⟨rfl, hlen, hcur, le_refl _⟩
    | backspace =>
      simp only [nslistTextUpdate]
      split <;> exact ⟨rfl, hlen, hcur, le_refl _⟩
    | ctrlH =>
      simp only [nslistTextUpdate]
      split <;> exact ⟨rfl, hlen, hcur, le_refl _⟩
    | runes =>
      simp only [nslistTextUpdate]
      split <;> exact ⟨rfl, hlen, hcur, le_refl _⟩
    | up => exact ⟨rfl, hlen, hcur, le_refl _⟩
    | down => exact ⟨rfl, hlen, hcur, le_refl _⟩
    | left => exact ⟨rfl, hlen, hcur, le_refl _⟩
    | right => exact ⟨rfl, hlen, hcur, le_refl _⟩
    | space => exact ⟨rfl, hlen, hcur, le_refl _⟩
    | tab => exact ⟨rfl, hlen, hcur, le_refl _⟩
    | shiftTab => exact ⟨rfl, hlen, hcur, le_refl _⟩
    | ctrlS => exact ⟨rfl, hlen, hcur, le_refl _⟩
    | ctrlC => exact ⟨rfl, hlen, hcur, le_refl _⟩
    | ctrlD => exact ⟨rfl, hlen, hcur, le_refl _⟩
    | delete => exact ⟨rfl, hlen, hcur, le_refl _⟩
  | windowSize w h => exact ⟨rfl, hlen, hcur, le_refl _⟩
  | spinnerTick => exact ⟨rfl, hlen, hcur, le_refl _⟩
  | dataLoading => exact ⟨rfl, hlen, hcur, le_refl _⟩
  | updateRRSetRequest => exact ⟨rfl, hlen, hcur, le_refl _⟩
  | dataLoaded => exact ⟨rfl, hlen, hcur, le_refl _⟩
  | recordCreated r => exact ⟨rfl, hlen, hcur, le_refl _⟩
  | switchTableToRRSet => exact ⟨rfl, hlen, hcur, le_refl _⟩
  | editRow row => exact ⟨rfl, hlen, hcur, le_refl _⟩
  | saveRow => exact ⟨rfl, hlen, hcur, le_refl _⟩
  | cancelEdit => exact ⟨rfl, hlen, hcur, le_refl _⟩
  | saveAction fields => exact ⟨rfl, hlen, hcur, le_refl _⟩
  | saveNameServers servers => exact ⟨rfl, hlen, hcur, le_refl _⟩
  | confirmDelete => exact ⟨rfl, hlen, hcur, le_refl _⟩
  | cancel => exact ⟨rfl, hlen, hcur, le_refl _⟩

/-- One step of the `"nslist"` mode preserves the list invariant: mode
stable, length between 2 and `max (current length) 4`, cursor in bounds. -/
theorem nslist_step (m : PopupModel) (msg : Msg)
    (hlen : 2 ≤ m.listValues.length)
    (hcur : m.listCursor < m.listValues.length) :
    (nslistUpdate m msg).1.mode = m.mode ∧
    2 ≤ (nslistUpdate m msg).1.listValues.length ∧
    (nslistUpdate m msg).1.listCursor <
      (nslistUpdate m msg).1.listValues.length ∧
    (nslistUpdate m msg).1.listValues.length ≤ max m.listValues.length 4 := by
  unfold nslistUpdate
  by_cases hte : m.inTextEdit
  · rw [if_pos hte]
    obtain ⟨h1, h2, h3, h4⟩ := nslistText_step m msg hlen hcur
    exact ⟨h1, h2, h3, by omega⟩
  · rw [if_neg hte]
    cases msg with
    | key k =>
      obtain ⟨kt, kr⟩ := k
      cases kt with
      | up =>
        simp only
        split
        · refine ⟨rfl, hlen, ?_, le_max_left _ _⟩
          dsimp only
          omega
        · exact ⟨rfl, hlen, hcur, le_max_left _ _⟩
      | down =>
        simp only
        split
        · split
          · rename_i h4
            refine ⟨rfl, ?_, ?_, ?_⟩ <;> dsimp only <;>
              simp only [List.length_append, List.length_cons,
                List.length_nil] <;> omega
          · exact ⟨rfl, hlen, hcur, le_max_left _ _⟩
        · rename_i hne
          refine ⟨rfl, hlen, ?_, le_max_left _ _⟩
          dsimp only
          omega
      | enter => exact ⟨rfl, hlen, hcur, le_max_left _ _⟩
      | ctrlD =>
        simp only
        split
        · rename_i h3
          obtain ⟨hd1, hd2⟩ := nsDeleteLine_bounds m h3 hcur
          refine ⟨rfl, ?_, hd2, ?_⟩
          · show 2 ≤ (nsDeleteLine m).listValues.length
            omega
          · show (nsDeleteLine m).listValues.length ≤ max m.listValues.length 4
            omega
        · exact ⟨rfl, hlen, hcur, le_max_left _ _⟩
      | ctrlS => exact ⟨rfl, hlen, hcur, le_max_left _ _⟩
      | esc => exact ⟨rfl, hlen, hcur, le_max_left _ _⟩
      | left => exact ⟨rfl, hlen, hcur, le_max_left _ _⟩
      | right => exact ⟨rfl, hlen, hcur, le_max_left _ _⟩
      | space => exact ⟨rfl, hlen, hcur, le_max_left _ _⟩
      | tab => exact ⟨rfl, hlen, hcur, le_max_left _ _⟩
      | shiftTab => exact ⟨rfl, hlen, hcur, le_max_left _ _⟩
      | ctrlC => exact ⟨rfl, hlen, hcur, le_max_left _ _⟩
      | ctrlH => exact ⟨rfl, hlen, hcur, le_max_left _ _⟩
      | backspace => exact ⟨rfl, hlen, hcur, le_max_left _ _⟩
      | delete => exact ⟨rfl, hlen, hcur, le_max_left _ _⟩
      | runes => exact ⟨rfl, hlen, hcur, le_max_left _ _⟩
    | windowSize w h => exact ⟨rfl, hlen, hcur, le_max_left _ _⟩
    | spinnerTick => exact ⟨rfl, hlen, hcur, le_max_left _ _⟩
    | dataLoading => exact ⟨rfl, hlen, hcur, le_max_left _ _⟩
    | updateRRSetRequest => exact ⟨rfl, hlen, hcur, le_max_left _ _⟩
    | dataLoaded => exact ⟨rfl, hlen, hcur, le_max_left _ _⟩
    | recordCreated r => exact ⟨rfl, hlen, hcur, le_max_left _ _⟩
    | switchTableToRRSet => exact ⟨rfl, hlen, hcur, le_max_left _ _⟩
    | editRow row => exact ⟨rfl, hlen, hcur, le_max_left _ _⟩
    | saveRow => exact ⟨rfl, hlen, hcur, le_max_left _ _⟩
    | cancelEdit => exact ⟨rfl, hlen, hcur, le_max_left _ _⟩
    | saveAction fields => exact ⟨rfl, hlen, hcur, le_max_left _ _⟩
    | saveNameServers servers => exact ⟨rfl, hlen, hcur, le_max_left _ _⟩
    | confirmDelete => exact ⟨rfl, hlen, hcur, le_max_left _ _⟩
    | cancel => exact ⟨rfl, hlen, hcur, le_max_left _ _⟩

/-- One step of the full popup update, started in `"nslist"` mode,
preserves the list invariant. -/
theorem nslist_popup_step (m : PopupModel) (msg : Msg)
    (hm : m.mode = "nslist")
    (hlen : 2 ≤ m.listValues.length)
    (hcur : m.listCursor < m.listValues.length) :
    (popupUpdate m msg).1.mode = "nslist" ∧
    2 ≤ (popupUpdate m msg).1.listValues.length ∧
    (popupUpdate m msg).1.listCursor <
      (popupUpdate m msg).1.listValues.length ∧
    (popupUpdate m msg).1.listValues.length ≤ max m.listValues.length 4 := by
  unfold popupUpdate
  by_cases hact : m.isActive
  · rw [if_neg (by simp [hact]), if_pos hm]
    obtain ⟨h1, h2, h3, h4⟩ := nslist_step m msg hlen hcur
    exact ⟨by rw [h1, hm], h2, h3, h4⟩
  · rw [if_pos (by simp [hact])]
    exact ⟨hm, hlen, hcur, le_max_left _ _⟩

theorem nslist_inv_many (N : Nat) (m : PopupModel) (msgs : List Msg)
    (hm : m.mode = "nslist")
    (hlen : 2 ≤ m.listValues.length)
    (hcur : m.listCursor < m.listValues.length)
    (hmax : m.listValues.length ≤ max N 4) :
    (applyMsgs m msgs).mode = "nslist" ∧
    2 ≤ (applyMsgs m msgs).listValues.length ∧
    (applyMsgs m msgs).listCursor < (applyMsgs m msgs).listValues.length ∧
    (applyMsgs m msgs).listValues.length ≤ max N 4 := by
  induction msgs generalizing m with
  | nil => exact ⟨hm, hlen, hcur, hmax⟩
  | cons msg rest ih =>
    obtain ⟨h1, h2, h3, h4⟩ := nslist_popup_step m msg hm hlen hcur
    have heq : (applyMsgs m (msg :: rest)) =
        applyMsgs (popupUpdate m msg).1 rest := rfl
    rw [heq]
    exact ih (popupUpdate m msg).1 h1 h2 h3 (by omega)

/-- **C2**: evaluation of the code at the failing input. The nameserver
grid documents its own bound — the editor's help line reads "(max 4 NS)"
and the Down handler caps appends at 4 — yet `NewNameServersEditor` only
pads up to 2 and never truncates, so constructed from a five-nameserver
initial list (as the `e` key builds for a zone whose NS column holds five
comma-separated nameservers) the editor keeps all five values, violating
the claimed upper bound of 4 at the very first state. -/
theorem c2_constructor_keeps_five_entries :
    (NewNameServersEditor
        ["ns1.example.com", "ns2.example.com", "ns3.example.com",
          "ns4.example.com", "ns5.example.com"]
        "Zone: example.com — NameServers").listValues.length = 5 ∧
    ¬((NewNameServersEditor
        ["ns1.example.com", "ns2.example.com", "ns3.example.com",
          "ns4.example.com", "ns5.example.com"]
        "Zone: example.com — NameServers").listValues.length ≤ 4) := by
  constructor
  · decide
  · decide

/-- The bounds the editor actually maintains: at least 2 entries always;
the length never grows past `max (padded initial length) 4`, the cap being
enforced only by the Down-append path, never by the constructor. Whenever
the initial list has at most 4 entries, `2 ≤ len ≤ 4` holds throughout. -/
theorem nslist_bounds_general (initial : List String) (title : String)
    (msgs : List Msg) :
    2 ≤ (applyMsgs (NewNameServersEditor initial title) msgs).listValues.length ∧
    (applyMsgs (NewNameServersEditor initial title) msgs).listValues.length ≤
      max (NewNameServersEditor initial title).listValues.length 4 ∧
    (initial.length ≤ 4 →
      (applyMsgs (NewNameServersEditor initial title) msgs).listValues.length ≤ 4) := by
  have hctor_len : (NewNameServersEditor initial title).listValues.length =
      max initial.length 2 := by
    show (padToTwo initial).length = max initial.length 2
    exact padToTwo_length initial
  obtain ⟨h1, h2, h3, h4⟩ :=
    nslist_inv_many (NewNameServersEditor initial title).listValues.length
      (NewNameServersEditor initial title) msgs rfl
      (by rw [hctor_len]; omega)
      (by rw [show (NewNameServersEditor initial title).listCursor = 0 from rfl,
          hctor_len]; omega)
      (le_max_left _ _)
  refine ⟨h2, h4, fun hle => ?_⟩
  rw [hctor_len] at h4
  omega

/-- **C10**: in the nameserver-list editor, starting from the constructor
state (cursor 0), after every sequence of operations (Up, Down, Ctrl+D
deletions, Enter-commits that may delete the current line, and any other
keys) the line cursor satisfies `0 ≤ ListCursor < len(ListValues)`. -/
theorem c10_nslist_cursor_in_bounds (initial : List String) (title : String)
    (msgs : List Msg) :
    (applyMsgs (NewNameServersEditor initial title) msgs).listCursor <
      (applyMsgs (NewNameServersEditor initial title) msgs).listValues.length := by
  have hctor_len : (NewNameServersEditor initial title).listValues.length =
      max initial.length 2 := padToTwo_length initial
  obtain ⟨h1, h2, h3, h4⟩ :=
    nslist_inv_many (NewNameServersEditor initial title).listValues.length
      (NewNameServersEditor initial title) msgs rfl
      (by rw [hctor_len]; omega)
      (by rw [show (NewNameServersEditor initial title).listCursor = 0 from rfl,
          hctor_len]; omega)
      (le_max_left _ _)
  exact h3

/-! ## Tables (`charmbracelet/bubbles/table` collaborator)

The slice of `table.Model` behaviour the Main Model uses: rows, a cursor,
a focus flag, and the layout metadata touched on resize. `MoveUp`/
`MoveDown` clamp the cursor into `[0, len(rows)-1]` — with an empty row
set the clamp target is `-1`, so the cursor is an `Int`. `SelectedRow`
returns the empty row when the cursor is out of bounds, as the library
does. -/

structure GoTable where
  rows : List (List String)
  cursor : Int
  focused : Bool
  columns : List (String × Int)
  height : Int
  width : Int
deriving DecidableEq, Repr

def GoTable.moveUp (t : GoTable) (n : Int) : GoTable :=
  { t with cursor := min (max (t.cursor - n) 0) (t.rows.length - 1) }

def GoTable.moveDown (t : GoTable) (n : Int) : GoTable :=
  { t with cursor := min (max (t.cursor + n) 0) (t.rows.length - 1) }

def GoTable.selectedRow (t : GoTable) : List String :=
  if t.cursor < 0 ∨ t.cursor ≥ t.rows.length then []
  else t.rows.getD t.cursor.toNat []

def GoTable.setRows (t : GoTable) (rows : List (List String)) : GoTable :=
  { t with rows := rows }

def GoTable.setColumns (t : GoTable) (cols : List (String × Int)) : GoTable :=
  { t with columns := cols }

/-! ## The record cache

`map[string][]models.DNSRecord` as an association list; Go map iteration
order never matters to the code (all access is by key). -/

def cacheLookup (c : List (String × List DNSRecord)) (k : String) :
    Option (List DNSRecord) :=
  (c.find? (fun p => p.1 == k)).map (·.2)

def cacheInsert (c : List (String × List DNSRecord)) (k : String)
    (v : List DNSRecord) : List (String × List DNSRecord) :=
  if (c.find? (fun p => p.1 == k)).isSome then
    c.map (fun p => if p.1 == k then (k, v) else p)
  else c ++ [(k, v)]

/-! ## Main TUI model (`internal/ui/model.go`)

State of `ui.Model`. Style values, the spinner's animation set and the
overlay compositor are render-only and omitted; the spinner is its frame
counter. Go's `current *table.Model` pointer is the name of the table it
points to (`""` for the initial nil pointer, assigned by the startup task
and by `View`); Go's nil `popup` pointer is an inactive `popupZero`, which
is observationally equal because every popup access is gated by
`showPopup`. -/

def checkMark : String := "✓"

def crossMark : String := "𐄂"

def boolToCheckMark (b : Bool) : String :=
  if b then checkMark else crossMark

/-- `strconv.Atoi`: optional sign then decimal digits; malformed input
yields 0 (the Go call sites discard the error), and out-of-range values
saturate at the int64 bounds exactly as `ParseInt` returns them alongside
`ErrRange`. -/
def goAtoi (s : String) : Int :=
  match s.data with
  | [] => 0
  | l =>
    let signDigits : Bool × List Char :=
      match l with
      | '+' :: rest => (false, rest)
      | '-' :: rest => (true, rest)
      | _ => (false, l)
    if signDigits.2.isEmpty then 0
    else if !(signDigits.2.all isDigitGo) then 0
    else
      let v : Int := (decVal signDigits.2 : Int)
      if signDigits.1 then -(min v (2 ^ 63)) else min v (2 ^ 63 - 1)

/-- `strings.Split` with a one-character separator. -/
def goSplit (sep : Char) (s : String) : List String :=
  (splitOnChar sep s.data).map (fun l => String.mk l)

structure Model where
  width : Int
  height : Int
  spinnerFrame : Nat
  loading : Bool
  current : String
  rrsetCache : List (String × List DNSRecord)
  popup : PopupModel
  showPopup : Bool
  editRow : List String
  editBuffer : List String
  cursor : Nat
  creating : Bool
  clientTimeout : Int
  zonesTable : GoTable
  rrsetTable : GoTable
deriving DecidableEq, Repr

/-- Dereference `m.current` for cursor reads; Go would nil-panic on the
`""` (nil) pointer, which no verified property reaches. -/
def Model.currentCursor (m : Model) : Int :=
  if m.current = "zones" then m.zonesTable.cursor
  else if m.current = "rrset" then m.rrsetTable.cursor
  else 0

def Model.currentRows (m : Model) : List (List String) :=
  if m.current = "zones" then m.zonesTable.rows
  else if m.current = "rrset" then m.rrsetTable.rows
  else []

def Model.currentSetRows (m : Model) (rows : List (List String)) : Model :=
  if m.current = "zones" then { m with zonesTable := m.zonesTable.setRows rows }
  else if m.current = "rrset" then
    { m with rrsetTable := m.rrsetTable.setRows rows }
  else m

def Model.currentMoveUp (m : Model) (n : Int) : Model :=
  if m.current = "zones" then { m with zonesTable := m.zonesTable.moveUp n }
  else if m.current = "rrset" then { m with rrsetTable := m.rrsetTable.moveUp n }
  else m

def Model.currentMoveDown (m : Model) (n : Int) : Model :=
  if m.current = "zones" then { m with zonesTable := m.zonesTable.moveDown n }
  else if m.current = "rrset" then
    { m with rrsetTable := m.rrsetTable.moveDown n }
  else m

/-- `Model.switchTable` (model.go lines 518-529). -/
def switchTable (m : Model) (name : String) : Model :=
  if name = "zones" then
    { m with
        zonesTable := { m.zonesTable with focused := true },
        rrsetTable := { m.rrsetTable with focused := false },
        current := "zones" }
  else if name = "rrset" then
    { m with
        zonesTable := { m.zonesTable with focused := false },
        rrsetTable := { m.rrsetTable with focused := true },
        current := "rrset" }
  else m

/-- The in-place mutation of the first cached record whose `Name` equals
`newRow[0]` (model.go lines 551-560): TTL is re-parsed with `Atoi`
ignoring errors, Proxied compares the lower-cased string to "true". -/
def updateFirstMatch : List DNSRecord → List String → List DNSRecord
  | [], _ => []
  | r :: rest, newRow =>
    if r.name = newRow.getD 0 "" then
      { r with
          ttl := goAtoi (newRow.getD 1 ""),
          rtype := newRow.getD 2 "",
          proxied := goToLower (newRow.getD 3 "") = "true",
          content := newRow.getD 4 "" } :: rest
    else r :: updateFirstMatch rest newRow

/-- `Model.updateTableRow` (model.go lines 538-564): replace the row at
`index` in the current table, then reconcile the cache entry of the
selected zone by first Name match. When the cache has no entry for the
zone, Go stores the nil slice back, creating an empty entry. -/
def updateTableRow (m : Model) (index : Int) (newRow : List String) : Model :=
  if 0 ≤ index ∧ index < m.currentRows.length then
    let m1 := m.currentSetRows (m.currentRows.set index.toNat newRow)
    let selectedRow := m1.zonesTable.selectedRow
    if 0 < selectedRow.length then
      let rrset :=
        match cacheLookup m1.rrsetCache (selectedRow.getD 0 "") with
        | some rs => rs
        | none => []
      { m1 with
          rrsetCache := cacheInsert m1.rrsetCache (selectedRow.getD 0 "")
            (updateFirstMatch rrset newRow) }
    else m1
  else m

/-- The row derived from a `DNSRecord` (as in `viewRRSet` and the
`recordCreatedMsg` handler). -/
def recordRow (r : DNSRecord) : List String :=
  [r.name, toString r.ttl, r.rtype, boolToCheckMark r.proxied, r.content]

def headerHeight : Int := 3
def statusHeight : Int := 1
def menuHeight : Int := 1

/-- `Model.resizeZonesColumns` (model.go lines 604-640). -/
def resizeZonesColumns (m : Model) : Model :=
  if m.width ≤ 0 then m
  else
    let available := m.width - 2 * 2
    let available := if available < 20 then 20 else available
    let nameW := available * 35 / 100
    let nsW := available - nameW
    let nameW' := if nameW < 12 then 12 else nameW
    let nsW' := if nameW < 12 then available - nameW' else nsW
    let pair : Int × Int :=
      if nsW' < 10 then
        (if available - 10 < 8 then 8 else available - 10, 10)
      else (nameW', nsW')
    { m with zonesTable :=
        m.zonesTable.setColumns [("Name", pair.1), ("NS", pair.2)] }

/-- `Model.resizeRRSetColumns` (model.go lines 644-700). -/
def resizeRRSetColumns (m : Model) : Model :=
  if m.width ≤ 0 then m
  else
    let available := m.width - 2 * 5
    let available := if available < 40 then 40 else available
    let nameW :=
      match m.zonesTable.columns.head? with
      | some c => c.2
      | none => 12
    let remaining0 := available - (nameW + 8 + 8 + 10)
    let widths : Int × Int × Int × Int :=
      if remaining0 < 20 then (6, 6, 8, available - (nameW + 6 + 6 + 8))
      else (8, 8, 10, remaining0)
    let contentW := widths.2.2.2
    let pair : Int × Int :=
      if contentW < 10 then
        if nameW > 8 then
          let reduce := 10 - contentW
          let reduce := if reduce > nameW - 8 then nameW - 8 else reduce
          (nameW - reduce,
            available - ((nameW - reduce) + widths.1 + widths.2.1 + widths.2.2.1))
        else (nameW, 10)
      else (nameW, contentW)
    { m with
        rrsetTable := m.rrsetTable.setColumns
          [("Name", pair.1), ("TTL", widths.1), ("Type", widths.2.1),
            ("Proxied", widths.2.2.1), ("Content", pair.2)] }

/-- `Model.applyLayout` (model.go lines 580-601). -/
def applyLayout (m : Model) : Model :=
  let available := m.height - headerHeight - statusHeight - menuHeight
  let available := if available < 3 then 3 else available
  let m1 := { m with
      zonesTable := { m.zonesTable with height := available },
      rrsetTable := { m.rrsetTable with height := available } }
  let m2 := resizeRRSetColumns (resizeZonesColumns m1)
  { m2 with
      zonesTable := { m2.zonesTable with width := m2.width },
      rrsetTable := { m2.rrsetTable with width := m2.width } }

/-! ## Commands and the update function

`tea.Cmd` closures become data. A `Cmd` is what `Update`/`Init` return;
the provider-calling ones (`startup`, `fetchRRSet`, `updateRR`,
`createRR`) have their bodies modelled below as `run...` functions from
the provider's response to the mutated model and the follow-up message
they enqueue (`nil` results become `none`). `emit` is a
`func() tea.Msg \x7b return msg \x7d` closure; `spinnerTick` the recurring
spinner timer command. -/

inductive Cmd where
  | none
  | quit
  | batch (cmds : List Cmd)
  | emit (msg : Msg)
  | startup
  | fetchRRSet (zone : String)
  | updateRR (fields : List String)
  | createRR (fields : List String)
  | spinnerTick
deriving Repr

def cmdOfPopupMsg : Option Msg → Cmd
  | Option.none => .none
  | some msg => .emit msg

/-- The `"e"` key handler (model.go lines 219-264): open the field-form
record editor when the Records table is focused, or the nameserver-list
editor when the Zones table is focused. -/
def openEditor (m : Model) : Model :=
  if m.rrsetTable.focused ∧ 0 ≤ m.currentCursor then
    if m.currentCursor < m.currentRows.length then
      let row := m.currentRows.getD m.currentCursor.toNat []
      if 5 ≤ row.length then
        { m with
            showPopup := true,
            creating := false,
            popup := popupNew ["Name", "TTL", "Type", "Proxied", "Content"]
              [row.getD 0 "", row.getD 1 "", row.getD 2 "",
                (if row.getD 3 "" = checkMark then "true" else "false"),
                row.getD 4 ""]
              "Resource record editing" }
      else m
    else m
  else if m.zonesTable.focused ∧ 0 ≤ m.zonesTable.cursor then
    if m.zonesTable.cursor < m.zonesTable.rows.length then
      let row := m.zonesTable.rows.getD m.zonesTable.cursor.toNat []
      if 2 ≤ row.length then
        { m with
            showPopup := true,
            popup := NewNameServersEditor
              (((goSplit ',' (row.getD 1 "")).map goTrim).filter (· ≠ ""))
              ("Zone: " ++ row.getD 0 "" ++ " — NameServers") }
      else m
    else m
  else m

/-- The `"c"` key handler (model.go lines 266-283): open the creation
field-form when the Records table is focused. -/
def openCreate (m : Model) : Model :=
  if m.rrsetTable.focused then
    { m with
        showPopup := true,
        creating := true,
        popup := popupNew ["Name", "TTL", "Type", "Proxied", "Content"]
          ["", "3600", "A", "false", ""] "Resource record creation" }
  else m

/-- The result of one `Update` step, with a ghost flag recording whether
the esc-while-popup-showing branch (model.go lines 207-210) executed. -/
structure StepResult where
  model : Model
  cmd : Cmd
  escWhilePopup : Bool
deriving Repr

/-- The second `switch msg.Type` of the key handler (model.go lines
291-301), reached by every key the first switch does not return from; the
trailing `if m.loading` spinner update is a no-op for key messages. -/
def afterFirstSwitch (m : Model) (k : KeyMsg) : StepResult :=
  match k.ktype with
  | .enter =>
    if m.zonesTable.focused then ⟨m, .emit .switchTableToRRSet, false⟩
    else ⟨m, .none, false⟩
  | .space => ⟨m, .emit .switchTableToRRSet, false⟩
  | _ => ⟨m, .none, false⟩

/-- The `tea.KeyMsg` arm of `Model.Update` (model.go lines 203-301):
`switch msg.String()` followed by `switch msg.Type`. -/
def mainUpdateKey (m : Model) (k : KeyMsg) : StepResult :=
  let s := keyString k
  if s = "esc" then
    if m.showPopup then ⟨switchTable m "rrset", .none, true⟩
    else afterFirstSwitch (switchTable m "zones") k
  else if s = "up" ∨ s = "k" then afterFirstSwitch (m.currentMoveUp 1) k
  else if s = "down" ∨ s = "j" then afterFirstSwitch (m.currentMoveDown 1) k
  else if s = "e" then afterFirstSwitch (openEditor m) k
  else if s = "c" then afterFirstSwitch (openCreate m) k
  else if s = "r" then ⟨m, .emit .dataLoading, false⟩
  else if s = "q" ∨ s = "ctrl+c" then ⟨m, .quit, false⟩
  else afterFirstSwitch m k

/-- `Model.Update` (model.go lines 180-406). While `showPopup` is set the
message is delegated to the popup and the function returns before any
top-level handler; otherwise the message kind is dispatched. The trailing
`if m.loading` spinner update only reacts to spinner ticks, which are
handled (and returned from) earlier, so it is a no-op on every path that
reaches it. -/
def mainUpdate (m : Model) (msg : Msg) : StepResult :=
  if m.showPopup then
    let res := popupUpdate m.popup msg
    if !res.1.isActive then
      ⟨{ m with popup := res.1, showPopup := false }, cmdOfPopupMsg res.2, false⟩
    else ⟨{ m with popup := res.1 }, cmdOfPopupMsg res.2, false⟩
  else
    match msg with
    | .windowSize w h =>
      ⟨applyLayout { m with width := w, height := h }, .none, false⟩
    | .key k => mainUpdateKey m k
    | .spinnerTick =>
      ⟨{ m with spinnerFrame := m.spinnerFrame + 1 }, .spinnerTick, false⟩
    | .dataLoading => ⟨{ m with loading := true }, .emit .updateRRSetRequest, false⟩
    | .updateRRSetRequest =>
      ⟨m, .fetchRRSet (m.zonesTable.selectedRow.getD 0 ""), false⟩
    | .dataLoaded => ⟨{ m with loading := false }, .none, false⟩
    | .recordCreated r =>
      let m1 :=
        if 0 < m.zonesTable.selectedRow.length then
          let zoneName := m.zonesTable.selectedRow.getD 0 ""
          let cached :=
            match cacheLookup m.rrsetCache zoneName with
            | some rs => rs
            | Option.none => []
          let m2 := { m with
              rrsetCache := cacheInsert m.rrsetCache zoneName (cached ++ [r]) }
          { m2 with
              rrsetTable := m2.rrsetTable.setRows (m2.rrsetTable.rows ++ [recordRow r]) }
        else m
      ⟨{ m1 with
          popup := { m1.popup with isActive := false },
          showPopup := false, creating := false }, .none, false⟩
    | .switchTableToRRSet => ⟨switchTable m "rrset", .none, false⟩
    | .editRow row =>
      ⟨{ m with showPopup := true, editRow := row, editBuffer := row, cursor := 0 },
        .none, false⟩
    | .saveRow =>
      ⟨{ m with
          editRow := m.editBuffer.take m.editRow.length ++
            m.editRow.drop (min m.editRow.length m.editBuffer.length),
          showPopup := false }, .none, false⟩
    | .cancelEdit => ⟨{ m with showPopup := false }, .none, false⟩
    | .saveAction fields =>
      if m.creating then ⟨m, .createRR fields, false⟩
      else ⟨updateTableRow m m.currentCursor fields, .updateRR fields, false⟩
    | .saveNameServers servers =>
      let m1 :=
        if m.zonesTable.focused then
          if 0 ≤ m.zonesTable.cursor ∧
              m.zonesTable.cursor < m.zonesTable.rows.length then
            { m with
                zonesTable := m.zonesTable.setRows
                  (m.zonesTable.rows.set m.zonesTable.cursor.toNat
                    ((m.zonesTable.rows.getD m.zonesTable.cursor.toNat []).set 1
                      (String.intercalate ", " servers))) }
          else m
        else m
      ⟨{ m1 with
          popup := { m1.popup with isActive := false },
          showPopup := false }, .none, false⟩
    | .confirmDelete => ⟨m, .none, false⟩
    | .cancel =>
      ⟨{ m with popup := { m.popup with isActive := false }, creating := false },
        .none, false⟩

/-! ## Deferred provider tasks

The bodies of the `tea.Cmd` closures that call the provider, as functions
of the provider's response. An `Except.error` response stands for any
failed call; the repository's providers return an empty slice/zero record
alongside the error, which the call sites bind with `_` for the error. -/

/-- `Model.updateRRSet` closure (model.go lines 501-515): stores whatever
record set the provider returned — the empty slice on error — into the
cache, and always enqueues `dataLoadedMsg`. -/
def runFetchRRSet (m : Model) (zone : String)
    (result : Except Unit (List DNSRecord)) : Model × Option Msg :=
  let rrset :=
    match result with
    | .ok rs => rs
    | .error _ => []
  ({ m with rrsetCache := cacheInsert m.rrsetCache zone rrset },
    some .dataLoaded)

/-- The record `updateRRFromFields` sends to `Provider.UpdateRR` (model.go
lines 722-746): the first cached record of the selected zone whose Name
equals the saved Name field — the zero record when none matches — with all
five fields overwritten from the form. -/
def buildUpdateTarget (m : Model) (fields : List String) : DNSRecord :=
  let zoneName := m.zonesTable.selectedRow.getD 0 ""
  let base :=
    match cacheLookup m.rrsetCache zoneName with
    | some rrset =>
      (rrset.find? (fun (r : DNSRecord) => r.name == fields.getD 0 "")).getD
        ⟨"", "", 0, "", false, ""⟩
    | Option.none => ⟨"", "", 0, "", false, ""⟩
  { base with
      name := fields.getD 0 "",
      ttl := goAtoi (fields.getD 1 ""),
      rtype := fields.getD 2 "",
      proxied := goToLower (fields.getD 3 "") = "true",
      content := fields.getD 4 "" }

/-- `Model.updateRRFromFields` closure (model.go lines 716-760): no zone
selected or provider error returns nil with no state change; on success it
(redundantly re-)closes the popup. The cache and tables are never touched
here. -/
def runUpdateRR (m : Model) (fields : List String)
    (result : Except Unit DNSRecord) : Model × Option Msg :=
  if m.zonesTable.selectedRow.length = 0 then (m, none)
  else
    match result with
    | .error _ => (m, none)
    | .ok _ =>
      ({ m with popup := { m.popup with isActive := false }, showPopup := false },
        none)

/-- `Model.createRRFromFields` closure (model.go lines 763-799): no zone
selected or provider error returns nil with no state change; on success it
enqueues `recordCreatedMsg` carrying exactly the record the provider
returned. -/
def runCreateRR (m : Model) (fields : List String)
    (result : Except Unit DNSRecord) : Model × Option Msg :=
  if m.zonesTable.selectedRow.length = 0 then (m, none)
  else
    match result with
    | .error _ => (m, none)
    | .ok newRecord => (m, some (.recordCreated newRecord))

/-- The `Init` startup closure (model.go lines 131-152): list zones (the
error is discarded; the provider returns the empty slice with it), fill
the Zones table, point `current` at it, and batch one record fetch per
zone. -/
def runStartup (m : Model) (zones : List Zone) : Model × Cmd :=
  ({ m with
      zonesTable := m.zonesTable.setRows
        (zones.map (fun z => [z.name, String.intercalate ", " z.nameServers])),
      current := "zones" },
    .batch (zones.map (fun z => Cmd.fetchRRSet z.name)))

/-- The state mutations `View` performs (model.go lines 158-175 and
469-492): when the Records table is focused, point `current` at it and
re-derive its rows from the cache of the selected zone. -/
def viewStep (m : Model) : Model :=
  if m.rrsetTable.focused then
    let m1 := { m with current := "rrset" }
    let rrset :=
      if 0 < m1.zonesTable.selectedRow.length then
        (cacheLookup m1.rrsetCache (m1.zonesTable.selectedRow.getD 0 "")).getD []
      else []
    { m1 with rrsetTable := m1.rrsetTable.setRows (rrset.map recordRow) }
  else m

/-- The model `rootCmdRun` hands to the bubbletea program (cmd/root.go
lines 163-196, `ui.NewModel`): Zones table focused, Records table blurred,
loading set, everything else at its zero value. -/
def initModel : Model where
  width := 0
  height := 0
  spinnerFrame := 0
  loading := true
  current := ""
  rrsetCache := []
  popup := popupZero
  showPopup := false
  editRow := []
  editBuffer := []
  cursor := 0
  creating := false
  clientTimeout := 0
  zonesTable :=
    { rows := [], cursor := 0, focused := true,
      columns := [("Name", 50), ("NS", 100), ("Provider", 20)],
      height := 35, width := 0 }
  rrsetTable :=
    { rows := [], cursor := 0, focused := false,
      columns := [("Name", 50), ("TTL", 10), ("Type", 10), ("Proxied", 10),
        ("Content", 70)],
      height := 35, width := 0 }

/-- The states the program can reach: the initial model, followed by any
interleaving of update steps (one per delivered message), completions of
the deferred provider tasks (with any provider response), and renders. -/
inductive Reachable : Model → Prop where
  | init : Reachable initModel
  | startup (m : Model) (zones : List Zone) :
      Reachable m → Reachable (runStartup m zones).1
  | step (m : Model) (msg : Msg) :
      Reachable m → Reachable (mainUpdate m msg).model
  | fetch (m : Model) (zone : String) (result : Except Unit (List DNSRecord)) :
      Reachable m → Reachable (runFetchRRSet m zone result).1
  | update (m : Model) (fields : List String) (result : Except Unit DNSRecord) :
      Reachable m → Reachable (runUpdateRR m fields result).1
  | create (m : Model) (fields : List String) (result : Except Unit DNSRecord) :
      Reachable m → Reachable (runCreateRR m fields result).1
  | view (m : Model) : Reachable m → Reachable (viewStep m)

/-! ## Focus exclusivity (claim C5) -/

/-- Both tables' focus flags, for frame lemmas. -/
def focusPair (m : Model) : Bool × Bool :=
  (m.zonesTable.focused, m.rrsetTable.focused)

/-- Exactly one of the two tables reports focused = true. -/
def focusExclusive (m : Model) : Prop :=
  m.zonesTable.focused = !m.rrsetTable.focused

theorem focusExclusive_of_pair_eq {m m' : Model}
    (hp : focusPair m' = focusPair m) (h : focusExclusive m) :
    focusExclusive m' := by
  unfold focusPair at hp
  unfold focusExclusive at h ⊢
  have h1 : m'.zonesTable.focused = m.zonesTable.focused :=
    congrArg Prod.fst hp
  have h2 : m'.rrsetTable.focused = m.rrsetTable.focused :=
    congrArg Prod.snd hp
  rw [h1, h2, h]

theorem focusExclusive_switchTable (m : Model) (name : String)
    (h : focusExclusive m) : focusExclusive (switchTable m name) := by
  unfold switchTable
  split
  · rfl
  · split
    · rfl
    · exact h

theorem focusPair_currentSetRows (m : Model) (rows : List (List String)) :
    focusPair (m.currentSetRows rows) = focusPair m := by
  unfold Model.currentSetRows
  split
  · rfl
  · split <;> rfl

theorem focusPair_currentMoveUp (m : Model) (n : Int) :
    focusPair (m.currentMoveUp n) = focusPair m := by
  unfold Model.currentMoveUp
  split
  · rfl
  · split <;> rfl

theorem focusPair_currentMoveDown (m : Model) (n : Int) :
    focusPair (m.currentMoveDown n) = focusPair m := by
  unfold Model.currentMoveDown
  split
  · rfl
  · split <;> rfl

theorem focusPair_updateTableRow (m : Model) (i : Int) (row : List String) :
    focusPair (updateTableRow m i row) = focusPair m := by
  unfold updateTableRow
  split
  · dsimp only
    split
    · exact focusPair_currentSetRows m _
    · exact focusPair_currentSetRows m _
  · rfl

theorem focusPair_resizeZonesColumns (m : Model) :
    focusPair (resizeZonesColumns m) = focusPair m := by
  unfold resizeZonesColumns
  split <;> rfl

theorem focusPair_resizeRRSetColumns (m : Model) :
    focusPair (resizeRRSetColumns m) = focusPair m := by
  unfold resizeRRSetColumns
  split <;> rfl

theorem focusPair_applyLayout (m : Model) :
    focusPair (applyLayout m) = focusPair m := by
  unfold applyLayout
  rw [show ∀ m2 : Model, focusPair { m2 with
      zonesTable := { m2.zonesTable with width := m2.width },
      rrsetTable := { m2.rrsetTable with width := m2.width } } = focusPair m2
    from fun m2 => rfl]
  rw [focusPair_resizeRRSetColumns, focusPair_resizeZonesColumns]
  rfl

theorem focusPair_openEditor (m : Model) :
    focusPair (openEditor m) = focusPair m := by
  unfold openEditor
  split
  · split
    · dsimp only
      split <;> rfl
    · rfl
  · split
    · split
      · dsimp only
        split <;> rfl
      · rfl
    · rfl

theorem focusPair_openCreate (m : Model) :
    focusPair (openCreate m) = focusPair m := by
  unfold openCreate
  split <;> rfl

theorem afterFirstSwitch_model (m : Model) (k : KeyMsg) :
    (afterFirstSwitch m k).model = m := by
  obtain ⟨kt, kr⟩ := k
  cases kt <;>
    simp only [afterFirstSwitch] <;>
    first
      | rfl
      | (split <;> rfl)

theorem focusExclusive_mainUpdateKey (m : Model) (k : KeyMsg)
    (h : focusExclusive m) : focusExclusive (mainUpdateKey m k).model := by
  unfold mainUpdateKey
  dsimp only
  split
  · split
    · exact focusExclusive_switchTable m "rrset" h
    · rw [afterFirstSwitch_model]
      exact focusExclusive_switchTable m "zones" h
  · split
    · rw [afterFirstSwitch_model]
      exact focusExclusive_of_pair_eq (focusPair_currentMoveUp m 1) h
    · split
      · rw [afterFirstSwitch_model]
        exact focusExclusive_of_pair_eq (focusPair_currentMoveDown m 1) h
      · split
        · rw [afterFirstSwitch_model]
          exact focusExclusive_of_pair_eq (focusPair_openEditor m) h
        · split
          · rw [afterFirstSwitch_model]
            exact focusExclusive_of_pair_eq (focusPair_openCreate m) h
          · split
            · exact h
            · split
              · exact h
              · rw [afterFirstSwitch_model]
                exact h

theorem focusExclusive_mainUpdate (m : Model) (msg : Msg)
    (h : focusExclusive m) : focusExclusive (mainUpdate m msg).model := by
  unfold mainUpdate
  by_cases hsp : m.showPopup
  · rw [if_pos hsp]
    dsimp only
    split <;> exact h
  · rw [if_neg hsp]
    cases msg with
    | windowSize w h' =>
      exact focusExclusive_of_pair_eq
        (focusPair_applyLayout { m with width := w, height := h' }) h
    | key k => exact focusExclusive_mainUpdateKey m k h
    | spinnerTick => exact h
    | dataLoading => exact h
    | updateRRSetRequest => exact h
    | dataLoaded => exact h
    | recordCreated r =>
      simp only []
      split <;> exact h
    | switchTableToRRSet => exact focusExclusive_switchTable m "rrset" h
    | editRow row => exact h
    | saveRow => exact h
    | cancelEdit => exact h
    | saveAction fields =>
      simp only []
      split
      · exact h
      · exact focusExclusive_of_pair_eq
          (focusPair_updateTableRow m m.currentCursor fields) h
    | saveNameServers servers =>
      simp only []
      split
      · split <;> exact h
      · exact h
    | confirmDelete => exact h
    | cancel => exact h

/-- **C5**: in every reachable state of the Main Model — starting from the
initial state with the Zones table focused and the Records table blurred —
exactly one of the two tables reports focused = true, and every operation
(updates, deferred task completions, renders), in particular every table
switch, preserves this. -/
theorem c5_focus_exclusivity (m : Model) (hr : Reachable m) :
    m.zonesTable.focused = !m.rrsetTable.focused := by
  induction hr with
  | init => rfl
  | startup m' zones hr' ih => exact ih
  | step m' msg hr' ih => exact focusExclusive_mainUpdate m' msg ih
  | fetch m' zone result hr' ih => exact ih
  | update m' fields result hr' ih =>
    show focusExclusive (runUpdateRR m' fields result).1
    unfold runUpdateRR
    split
    · exact ih
    · split <;> exact ih
  | create m' fields result hr' ih =>
    show focusExclusive (runCreateRR m' fields result).1
    unfold runCreateRR
    split
    · exact ih
    · split <;> exact ih
  | view m' hr' ih =>
    show focusExclusive (viewStep m')
    unfold viewStep
    split <;> exact ih

/-- **C5 (witness)**: the initial state is reachable and satisfies the
invariant. -/
theorem c5_focus_exclusivity_witness :
    Reachable initModel ∧
      initModel.zonesTable.focused = !initModel.rrsetTable.focused :=
  ⟨Reachable.init, c5_focus_exclusivity initModel Reachable.init⟩

/-! ## Popup delegation and the dead esc branch (claim C4) -/

theorem afterFirstSwitch_escFlag (m : Model) (k : KeyMsg) :
    (afterFirstSwitch m k).escWhilePopup = false := by
  obtain ⟨kt, kr⟩ := k
  cases kt <;>
    simp only [afterFirstSwitch] <;>
    first
      | rfl
      | (split <;> rfl)

theorem mainUpdateKey_escFlag (m : Model) (k : KeyMsg)
    (hsp : m.showPopup = false) :
    (mainUpdateKey m k).escWhilePopup = false := by
  unfold mainUpdateKey
  dsimp only
  split
  · simp only [hsp, Bool.false_eq_true, if_false]
    exact afterFirstSwitch_escFlag _ k
  · split
    · exact afterFirstSwitch_escFlag _ k
    · split
      · exact afterFirstSwitch_escFlag _ k
      · split
        · exact afterFirstSwitch_escFlag _ k
        · split
          · exact afterFirstSwitch_escFlag _ k
          · split
            · rfl
            · split
              · rfl
              · exact afterFirstSwitch_escFlag m k

/-- A popup editor in a state where pressing Esc closes it: used to
witness the delegation claim at a concrete input. -/
def popupShowingModel : Model :=
  { initModel with
      showPopup := true,
      popup := popupNew ["Name", "TTL", "Type", "Proxied", "Content"]
        ["www", "300", "A", "false", "203.0.113.7"] "Resource record editing" }

/-- **C4**: whenever the popup-showing flag is set, `Update` delegates the
message to the popup and returns at once — the resulting model carries the
popup's new state and activity flag, and the tables, cache, focus target,
creating and loading flags are untouched; and on every input whatsoever
(popup showing or not) the esc-key branch guarded by the popup-showing
flag, which would switch to the records view, is never executed. -/
theorem c4_popup_delegation_and_dead_esc (m : Model) (msg : Msg) :
    (m.showPopup = true →
      (mainUpdate m msg).model.popup = (popupUpdate m.popup msg).1 ∧
      (mainUpdate m msg).model.showPopup = (popupUpdate m.popup msg).1.isActive ∧
      (mainUpdate m msg).cmd = cmdOfPopupMsg (popupUpdate m.popup msg).2 ∧
      (mainUpdate m msg).model.zonesTable = m.zonesTable ∧
      (mainUpdate m msg).model.rrsetTable = m.rrsetTable ∧
      (mainUpdate m msg).model.rrsetCache = m.rrsetCache ∧
      (mainUpdate m msg).model.current = m.current ∧
      (mainUpdate m msg).model.creating = m.creating ∧
      (mainUpdate m msg).model.loading = m.loading) ∧
    (mainUpdate m msg).escWhilePopup = false := by
  constructor
  · intro hsp
    unfold mainUpdate
    rw [if_pos hsp]
    dsimp only
    split
    · rename_i hia
      simp only [Bool.not_eq_true'] at hia
      exact ⟨rfl, by rw [hia], rfl, rfl, rfl, rfl, rfl, rfl, rfl⟩
    · rename_i hia
      simp only [Bool.not_eq_true', Bool.not_eq_false] at hia
      refine ⟨rfl, ?_, rfl, rfl, rfl, rfl, rfl, rfl, rfl⟩
      show m.showPopup = (popupUpdate m.popup msg).1.isActive
      rw [hsp, hia]
  · by_cases hsp : m.showPopup
    · unfold mainUpdate
      rw [if_pos hsp]
      dsimp only
      split <;> rfl
    · unfold mainUpdate
      rw [if_neg hsp]
      cases msg with
      | key k => exact mainUpdateKey_escFlag m k (by simpa using hsp)
      | windowSize w h => rfl
      | spinnerTick => rfl
      | dataLoading => rfl
      | updateRRSetRequest => rfl
      | dataLoaded => rfl
      | recordCreated r => rfl
      | switchTableToRRSet => rfl
      | editRow row => rfl
      | saveRow => rfl
      | cancelEdit => rfl
      | saveAction fields =>
        dsimp only
        split <;> rfl
      | saveNameServers servers => rfl
      | confirmDelete => rfl
      | cancel => rfl

/-- **C4 (witness)**: at a concrete model whose popup is showing and a
concrete Esc key press, the delegation facts and the dead-branch flag are
obtained from the theorem with its hypothesis discharged. -/
theorem c4_witness :
    popupShowingModel.showPopup = true ∧
    ((mainUpdate popupShowingModel (.key ⟨.esc, ""⟩)).model.popup =
        (popupUpdate popupShowingModel.popup (.key ⟨.esc, ""⟩)).1 ∧
      (mainUpdate popupShowingModel (.key ⟨.esc, ""⟩)).model.showPopup =
        (popupUpdate popupShowingModel.popup (.key ⟨.esc, ""⟩)).1.isActive ∧
      (mainUpdate popupShowingModel (.key ⟨.esc, ""⟩)).cmd =
        cmdOfPopupMsg (popupUpdate popupShowingModel.popup (.key ⟨.esc, ""⟩)).2 ∧
      (mainUpdate popupShowingModel (.key ⟨.esc, ""⟩)).model.zonesTable =
        popupShowingModel.zonesTable ∧
      (mainUpdate popupShowingModel (.key ⟨.esc, ""⟩)).model.rrsetTable =
        popupShowingModel.rrsetTable ∧
      (mainUpdate popupShowingModel (.key ⟨.esc, ""⟩)).model.rrsetCache =
        popupShowingModel.rrsetCache ∧
      (mainUpdate popupShowingModel (.key ⟨.esc, ""⟩)).model.current =
        popupShowingModel.current ∧
      (mainUpdate popupShowingModel (.key ⟨.esc, ""⟩)).model.creating =
        popupShowingModel.creating ∧
      (mainUpdate popupShowingModel (.key ⟨.esc, ""⟩)).model.loading =
        popupShowingModel.loading) ∧
    (mainUpdate popupShowingModel (.key ⟨.esc, ""⟩)).escWhilePopup = false :=
  ⟨rfl,
    (c4_popup_delegation_and_dead_esc popupShowingModel (.key ⟨.esc, ""⟩)).1 rfl,
    (c4_popup_delegation_and_dead_esc popupShowingModel (.key ⟨.esc, ""⟩)).2⟩

/-! ## Field-form save in edit mode (claims C1, C9) -/

theorem updateFirstMatch_no_match (rs : List DNSRecord) (newRow : List String)
    (h : ∀ r ∈ rs, r.name ≠ newRow.getD 0 "") :
    updateFirstMatch rs newRow = rs := by
  induction rs with
  | nil => rfl
  | cons r rest ih =>
    unfold updateFirstMatch
    rw [if_neg (h r (by simp))]
    rw [ih (fun x hx => h x (by simp [hx]))]

theorem updateFirstMatch_first (pre : List DNSRecord) (r : DNSRecord)
    (post : List DNSRecord) (newRow : List String)
    (hpre : ∀ p ∈ pre, p.name ≠ newRow.getD 0 "")
    (hr : r.name = newRow.getD 0 "") :
    updateFirstMatch (pre ++ r :: post) newRow =
      pre ++ { r with
          ttl := goAtoi (newRow.getD 1 ""),
          rtype := newRow.getD 2 "",
          proxied := goToLower (newRow.getD 3 "") = "true",
          content := newRow.getD 4 "" } :: post := by
  induction pre with
  | nil =>
    show updateFirstMatch (r :: post) newRow = _
    unfold updateFirstMatch
    rw [if_pos hr]
    rfl
  | cons p pre' ih =>
    show updateFirstMatch (p :: (pre' ++ r :: post)) newRow = _
    unfold updateFirstMatch
    rw [if_neg (hpre p (by simp))]
    rw [ih (fun x hx => hpre x (by simp [hx]))]
    rfl

theorem find?_cons_pos {α : Type} (pred : α → Bool) (a : α) (l : List α)
    (h : pred a = true) : List.find? pred (a :: l) = some a := by
  simp [List.find?, h]

theorem find?_cons_neg {α : Type} (pred : α → Bool) (a : α) (l : List α)
    (h : pred a = false) : List.find? pred (a :: l) = List.find? pred l := by
  simp [List.find?, h]

theorem cacheLookup_insert (c : List (String × List DNSRecord)) (k : String)
    (v : List DNSRecord) :
    cacheLookup (cacheInsert c k v) k = some v := by
  unfold cacheInsert
  split
  · rename_i hs
    induction c with
    | nil => simp [List.find?] at hs
    | cons p rest ih =>
      cases hpk : (p.1 == k) with
      | true =>
        unfold cacheLookup
        rw [List.map_cons, if_pos hpk,
          find?_cons_pos (fun q => q.1 == k) (k, v) _ (by simp)]
        rfl
      | false =>
        unfold cacheLookup
        rw [List.map_cons, if_neg (by simp [hpk]),
          find?_cons_neg (fun q => q.1 == k) p _ hpk]
        have hs' : (rest.find? (fun q => q.1 == k)).isSome := by
          rw [find?_cons_neg (fun q => q.1 == k) p rest hpk] at hs
          exact hs
        exact ih hs'
  · rename_i hs
    unfold cacheLookup
    induction c with
    | nil =>
      rw [List.nil_append,
        find?_cons_pos (fun q => q.1 == k) (k, v) [] (by simp)]
      rfl
    | cons p rest ih =>
      cases hpk : (p.1 == k) with
      | true =>
        exact absurd (by
          rw [find?_cons_pos (fun q => q.1 == k) p rest hpk]
          rfl) hs
      | false =>
        rw [List.cons_append, find?_cons_neg (fun q => q.1 == k) p _ hpk]
        exact ih (by
          intro hc
          apply hs
          rw [find?_cons_neg (fun q => q.1 == k) p rest hpk]
          exact hc)

theorem cacheLookup_replace_ne (c : List (String × List DNSRecord))
    (k : String) (v : List DNSRecord) (z : String) (hz : (k == z) = false) :
    cacheLookup (c.map (fun p => if p.1 == k then (k, v) else p)) z =
      cacheLookup c z := by
  induction c with
  | nil => rfl
  | cons p rest ih =>
    cases hpk : (p.1 == k) with
    | true =>
      have hpz : (p.1 == z) = false := by
        have h1 : p.1 = k := by simpa using hpk
        rw [h1]
        exact hz
      unfold cacheLookup
      rw [List.map_cons, if_pos hpk,
        find?_cons_neg (fun q => q.1 == z) (k, v) _ (by simpa using hz),
        find?_cons_neg (fun q => q.1 == z) p _ hpz]
      exact ih
    | false =>
      unfold cacheLookup
      rw [List.map_cons, if_neg (by simp [hpk])]
      cases hpz : (p.1 == z) with
      | true =>
        rw [find?_cons_pos (fun q => q.1 == z) p _ hpz,
          find?_cons_pos (fun q => q.1 == z) p _ hpz]
      | false =>
        rw [find?_cons_neg (fun q => q.1 == z) p _ hpz,
          find?_cons_neg (fun q => q.1 == z) p _ hpz]
        exact ih

theorem cacheLookup_replace_self (c : List (String × List DNSRecord))
    (k : String) (v : List DNSRecord) (hv : cacheLookup c k = some v) :
    cacheLookup (c.map (fun p => if p.1 == k then (k, v) else p)) k =
      cacheLookup c k := by
  induction c with
  | nil => rfl
  | cons p rest ih =>
    cases hpk : (p.1 == k) with
    | true =>
      unfold cacheLookup at hv ⊢
      rw [find?_cons_pos (fun q => q.1 == k) p rest hpk] at hv
      rw [List.map_cons, if_pos hpk,
        find?_cons_pos (fun q => q.1 == k) (k, v) _ (by simp),
        find?_cons_pos (fun q => q.1 == k) p rest hpk]
      have hv' : p.2 = v := by simpa using hv
      simp [hv']
    | false =>
      unfold cacheLookup at hv ⊢
      rw [find?_cons_neg (fun q => q.1 == k) p rest hpk] at hv
      rw [List.map_cons, if_neg (by simp [hpk]),
        find?_cons_neg (fun q => q.1 == k) p _ hpk,
        find?_cons_neg (fun q => q.1 == k) p rest hpk]
      exact ih hv

/-- Re-inserting the value a key already holds leaves every lookup
unchanged. -/
theorem cacheInsert_preserves_lookup (c : List (String × List DNSRecord))
    (k : String) (v : List DNSRecord) (hv : cacheLookup c k = some v)
    (z : String) :
    cacheLookup (cacheInsert c k v) z = cacheLookup c z := by
  unfold cacheInsert
  have hs : (c.find? (fun p => p.1 == k)).isSome := by
    unfold cacheLookup at hv
    cases hf : c.find? (fun p => p.1 == k) with
    | none => rw [hf] at hv; simp at hv
    | some p => rfl
  rw [if_pos hs]
  cases hkz : (k == z) with
  | true =>
    have : k = z := by simpa using hkz
    subst this
    exact cacheLookup_replace_self c k v hv
  | false => exact cacheLookup_replace_ne c k v z hkz

/-- `updateTableRow` on a valid Records-table index with a selected zone:
the Records table row is replaced and the zone's cache entry is rewritten
by first-Name-match against the new row. -/
theorem updateTableRow_rrset (m : Model) (fields : List String) (cursor : Nat)
    (hcurrent : m.current = "rrset")
    (hrrcur : m.rrsetTable.cursor = (cursor : Int))
    (hinb : cursor < m.rrsetTable.rows.length)
    (hzlen : 0 < m.zonesTable.selectedRow.length) :
    updateTableRow m m.currentCursor fields =
      { m with
          rrsetTable := m.rrsetTable.setRows (m.rrsetTable.rows.set cursor fields),
          rrsetCache := cacheInsert m.rrsetCache
            (m.zonesTable.selectedRow.getD 0 "")
            (updateFirstMatch
              ((cacheLookup m.rrsetCache
                (m.zonesTable.selectedRow.getD 0 "")).getD [])
              fields) } := by
  have hc : m.currentCursor = (cursor : Int) := by
    unfold Model.currentCursor
    rw [hcurrent]
    simp [hrrcur]
  have hrows : m.currentRows = m.rrsetTable.rows := by
    unfold Model.currentRows
    rw [hcurrent]
    simp
  unfold updateTableRow
  rw [hc, hrows]
  rw [if_pos ⟨Int.ofNat_nonneg cursor, by exact_mod_cast hinb⟩]
  dsimp only
  rw [show ((cursor : Int)).toNat = cursor from rfl]
  have hset : m.currentSetRows (m.rrsetTable.rows.set cursor fields) =
      { m with rrsetTable :=
          m.rrsetTable.setRows (m.rrsetTable.rows.set cursor fields) } := by
    unfold Model.currentSetRows
    rw [hcurrent]
    simp
  rw [hset]
  rw [if_pos (by exact hzlen)]
  cases hl : cacheLookup m.rrsetCache (m.zonesTable.selectedRow.getD 0 "") with
  | none => simp [hl]
  | some rs => simp [hl]

theorem mainUpdate_saveAction (m : Model) (fields : List String)
    (hsp : m.showPopup = false) (hcr : m.creating = false) :
    mainUpdate m (.saveAction fields) =
      ⟨updateTableRow m m.currentCursor fields, .updateRR fields, false⟩ := by
  unfold mainUpdate
  rw [if_neg (by simp [hsp])]
  dsimp only
  rw [if_neg (by simp [hcr])]

/-- The record mutation a save with fields
`["www","600","A","false","203.0.113.1"]` applies to the first cached Name
match. -/
theorem applyFields_600 (r : DNSRecord) :
    ({ r with
        ttl := goAtoi ((["www", "600", "A", "false", "203.0.113.1"] :
          List String).getD 1 ""),
        rtype := (["www", "600", "A", "false", "203.0.113.1"] :
          List String).getD 2 "",
        proxied := (goToLower ((["www", "600", "A", "false", "203.0.113.1"] :
          List String).getD 3 "") = "true"),
        content := (["www", "600", "A", "false", "203.0.113.1"] :
          List String).getD 4 "" } : DNSRecord) =
      { r with
          ttl := 600, rtype := "A", proxied := false,
          content := "203.0.113.1" } := by
  show DNSRecord.mk r.id r.name (goAtoi "600") "A"
      (decide (goToLower "false" = "true")) "203.0.113.1" =
    DNSRecord.mk r.id r.name 600 "A" false "203.0.113.1"
  rw [show goAtoi "600" = 600 from by decide,
    show (decide (goToLower "false" = "true")) = false from by decide]

/-- **C1**: a field-form save in edit (non-create) mode on a zone whose
cache holds a record named "www" with TTL 300, with fields
`["www","600","A","false","203.0.113.1"]`, synchronously (within the same
`Update` step) replaces the selected Records-table row with those fields
and rewrites the first cached "www" record to TTL 600, Type "A", Proxied
false, Content "203.0.113.1" — while the provider call is only the
deferred command the step returns, not yet issued. -/
theorem c1_edit_save_row_and_cache (m : Model) (z : String)
    (pre post : List DNSRecord) (r : DNSRecord) (cursor : Nat)
    (hsp : m.showPopup = false)
    (hcr : m.creating = false)
    (hcurrent : m.current = "rrset")
    (hrrcur : m.rrsetTable.cursor = (cursor : Int))
    (hinb : cursor < m.rrsetTable.rows.length)
    (hzlen : 0 < m.zonesTable.selectedRow.length)
    (hz : m.zonesTable.selectedRow.getD 0 "" = z)
    (hcache : cacheLookup m.rrsetCache z = some (pre ++ r :: post))
    (hpre : ∀ p ∈ pre, p.name ≠ "www")
    (hname : r.name = "www")
    (httl : r.ttl = 300) :
    (mainUpdate m (.saveAction ["www", "600", "A", "false", "203.0.113.1"])).model.rrsetTable.rows =
      m.rrsetTable.rows.set cursor ["www", "600", "A", "false", "203.0.113.1"] ∧
    cacheLookup (mainUpdate m
        (.saveAction ["www", "600", "A", "false", "203.0.113.1"])).model.rrsetCache z =
      some (pre ++
        { r with
            ttl := 600, rtype := "A", proxied := false,
            content := "203.0.113.1" } :: post) ∧
    (mainUpdate m (.saveAction ["www", "600", "A", "false", "203.0.113.1"])).cmd =
      .updateRR ["www", "600", "A", "false", "203.0.113.1"] := by
  rw [mainUpdate_saveAction m _ hsp hcr]
  rw [updateTableRow_rrset m _ cursor hcurrent hrrcur hinb hzlen]
  rw [hz]
  refine ⟨rfl, ?_, rfl⟩
  rw [hcache]
  show cacheLookup (cacheInsert m.rrsetCache z
    (updateFirstMatch (pre ++ r :: post) _)) z = _
  rw [updateFirstMatch_first pre r post _ (by simpa using hpre) (by simpa using hname)]
  rw [cacheLookup_insert]
  rw [applyFields_600 r]

theorem map_keyfix_id (k : String) (v : List DNSRecord)
    (l : List (String × List DNSRecord))
    (h : ∀ q ∈ l, (q.1 == k) = false) :
    l.map (fun p => if p.1 == k then (k, v) else p) = l := by
  induction l with
  | nil => rfl
  | cons q rest ih =>
    rw [List.map_cons, if_neg (by simp [h q (by simp)]),
      ih (fun x hx => h x (by simp [hx]))]

theorem cacheReplace_self_of_nodup (c : List (String × List DNSRecord))
    (k : String) (v : List DNSRecord)
    (hnd : (c.map Prod.fst).Nodup)
    (hv : cacheLookup c k = some v) :
    c.map (fun p => if p.1 == k then (k, v) else p) = c := by
  induction c with
  | nil => rfl
  | cons p rest ih =>
    obtain ⟨p1, p2⟩ := p
    rw [List.map_cons] at hnd
    obtain ⟨hpn, hnd'⟩ := List.nodup_cons.mp hnd
    cases hpk : (p1 == k) with
    | true =>
      have hp1 : p1 = k := by simpa using hpk
      have hv' : p2 = v := by
        unfold cacheLookup at hv
        rw [find?_cons_pos (fun q => q.1 == k) (p1, p2) rest hpk] at hv
        simpa using hv
      have hrest : ∀ q ∈ rest, (q.1 == k) = false := by
        intro q hq
        cases hqk : (q.1 == k) with
        | false => rfl
        | true =>
          exfalso
          apply hpn
          have hqe : q.1 = k := by simpa using hqk
          show p1 ∈ rest.map Prod.fst
          rw [hp1, ← hqe]
          exact List.mem_map_of_mem Prod.fst hq
      rw [List.map_cons, if_pos hpk]
      rw [map_keyfix_id k v rest hrest]
      rw [show ((k, v) : String × List DNSRecord) = (p1, p2) by rw [hp1, hv']]
    | false =>
      rw [List.map_cons, if_neg (by simp [hpk])]
      have hv2 : cacheLookup rest k = some v := by
        unfold cacheLookup at hv ⊢
        rw [find?_cons_neg (fun q => q.1 == k) (p1, p2) rest hpk] at hv
        exact hv
      rw [ih hnd' hv2]

/-- Writing back the value a key already holds is a no-op on a cache with
unique keys — which every cache is, being the image of a Go map. -/
theorem cacheInsert_self_of_nodup (c : List (String × List DNSRecord))
    (k : String) (v : List DNSRecord)
    (hnd : (c.map Prod.fst).Nodup)
    (hv : cacheLookup c k = some v) :
    cacheInsert c k v = c := by
  unfold cacheInsert
  have hs : (c.find? (fun p => p.1 == k)).isSome := by
    unfold cacheLookup at hv
    cases hf : c.find? (fun p => p.1 == k) with
    | none => rw [hf] at hv; simp at hv
    | some p => rfl
  rw [if_pos hs]
  exact cacheReplace_self_of_nodup c k v hnd hv

/-- **C9**: on a field-form save in edit mode, the cache record to mutate
is located by comparing each cached record's Name against the saved —
possibly edited, new — Name field value, not against the record's original
name; hence when no cached record of the selected zone carries the new
name (even though records with the original name may still be present,
as in the witness), the whole record cache is left literally unchanged —
the write stores back the value already held — while the selected table row is
still replaced with the new field values. The cache's keys are unique, as
for any Go map. -/
theorem c9_rename_leaves_cache_unchanged (m : Model) (z : String)
    (rs : List DNSRecord) (fields : List String) (cursor : Nat)
    (hsp : m.showPopup = false)
    (hcr : m.creating = false)
    (hcurrent : m.current = "rrset")
    (hrrcur : m.rrsetTable.cursor = (cursor : Int))
    (hinb : cursor < m.rrsetTable.rows.length)
    (hzlen : 0 < m.zonesTable.selectedRow.length)
    (hz : m.zonesTable.selectedRow.getD 0 "" = z)
    (hnodup : (m.rrsetCache.map Prod.fst).Nodup)
    (hcache : cacheLookup m.rrsetCache z = some rs)
    (hnm : ∀ rec ∈ rs, rec.name ≠ fields.getD 0 "") :
    (mainUpdate m (.saveAction fields)).model.rrsetTable.rows =
      m.rrsetTable.rows.set cursor fields ∧
    (mainUpdate m (.saveAction fields)).model.rrsetCache = m.rrsetCache ∧
    (mainUpdate m (.saveAction fields)).cmd = .updateRR fields := by
  rw [mainUpdate_saveAction m fields hsp hcr]
  rw [updateTableRow_rrset m fields cursor hcurrent hrrcur hinb hzlen]
  rw [hz]
  refine ⟨rfl, ?_, rfl⟩
  show cacheInsert m.rrsetCache z
    (updateFirstMatch ((cacheLookup m.rrsetCache z).getD []) fields) =
    m.rrsetCache
  rw [hcache]
  show cacheInsert m.rrsetCache z (updateFirstMatch rs fields) = m.rrsetCache
  rw [updateFirstMatch_no_match rs fields hnm]
  exact cacheInsert_self_of_nodup m.rrsetCache z rs hnodup hcache

/-- A concrete model mid-session: one zone "example.com" selected, its
record set cached, the Records table focused with one row. Used to witness
the edit-save and task-completion claims at concrete inputs. -/
def editSaveModel : Model :=
  { initModel with
      current := "rrset",
      zonesTable := { initModel.zonesTable with
        rows := [["example.com", "ns1.example.com, ns2.example.com"]],
        cursor := 0 },
      rrsetTable := { initModel.rrsetTable with
        focused := true,
        rows := [["www", "300", "A", "𐄂", "198.51.100.5"]],
        cursor := 0 },
      rrsetCache :=
        [("example.com", [⟨"rec1", "www", 300, "A", false, "198.51.100.5"⟩])] }

/-- **C1 (witness)**: the edit-save theorem applied to `editSaveModel`,
whose cache holds the single record ("www", TTL 300), with every
hypothesis discharged at this concrete input. -/
theorem c1_witness :
    editSaveModel.showPopup = false ∧
    editSaveModel.creating = false ∧
    editSaveModel.current = "rrset" ∧
    editSaveModel.rrsetTable.cursor = ((0 : Nat) : Int) ∧
    0 < editSaveModel.rrsetTable.rows.length ∧
    0 < editSaveModel.zonesTable.selectedRow.length ∧
    editSaveModel.zonesTable.selectedRow.getD 0 "" = "example.com" ∧
    cacheLookup editSaveModel.rrsetCache "example.com" =
      some ([] ++ (⟨"rec1", "www", 300, "A", false, "198.51.100.5"⟩ :
        DNSRecord) :: []) ∧
    ((mainUpdate editSaveModel
        (.saveAction ["www", "600", "A", "false", "203.0.113.1"])).model.rrsetTable.rows =
      editSaveModel.rrsetTable.rows.set 0
        ["www", "600", "A", "false", "203.0.113.1"] ∧
    cacheLookup (mainUpdate editSaveModel
        (.saveAction ["www", "600", "A", "false", "203.0.113.1"])).model.rrsetCache
        "example.com" =
      some ([] ++
        ({ (⟨"rec1", "www", 300, "A", false, "198.51.100.5"⟩ : DNSRecord) with
            ttl := 600, rtype := "A", proxied := false,
            content := "203.0.113.1" } : DNSRecord) :: []) ∧
    (mainUpdate editSaveModel
        (.saveAction ["www", "600", "A", "false", "203.0.113.1"])).cmd =
      .updateRR ["www", "600", "A", "false", "203.0.113.1"]) :=
  ⟨rfl, rfl, rfl, rfl, by decide, by decide, by decide, by decide,
    c1_edit_save_row_and_cache editSaveModel "example.com" [] []
      ⟨"rec1", "www", 300, "A", false, "198.51.100.5"⟩ 0
      rfl rfl rfl rfl (by decide) (by decide) (by decide) (by decide)
      (by simp) rfl rfl⟩

/-- **C9 (witness)**: the rename-miss theorem applied to `editSaveModel`:
the edited row's original record "www" is still cached, the Name field was
changed to "api" which no cached record carries, and the cache comes out
literally equal while the row is replaced. -/
theorem c9_witness :
    editSaveModel.showPopup = false ∧
    editSaveModel.creating = false ∧
    editSaveModel.current = "rrset" ∧
    editSaveModel.rrsetTable.cursor = ((0 : Nat) : Int) ∧
    0 < editSaveModel.rrsetTable.rows.length ∧
    0 < editSaveModel.zonesTable.selectedRow.length ∧
    editSaveModel.zonesTable.selectedRow.getD 0 "" = "example.com" ∧
    (editSaveModel.rrsetCache.map Prod.fst).Nodup ∧
    cacheLookup editSaveModel.rrsetCache "example.com" =
      some [⟨"rec1", "www", 300, "A", false, "198.51.100.5"⟩] ∧
    (∀ rec ∈ ([⟨"rec1", "www", 300, "A", false, "198.51.100.5"⟩] :
        List DNSRecord),
      rec.name ≠ (["api", "600", "A", "false", "203.0.113.1"] :
        List String).getD 0 "") ∧
    ((mainUpdate editSaveModel
        (.saveAction ["api", "600", "A", "false", "203.0.113.1"])).model.rrsetTable.rows =
      editSaveModel.rrsetTable.rows.set 0
        ["api", "600", "A", "false", "203.0.113.1"] ∧
    (mainUpdate editSaveModel
        (.saveAction ["api", "600", "A", "false", "203.0.113.1"])).model.rrsetCache =
      editSaveModel.rrsetCache ∧
    (mainUpdate editSaveModel
        (.saveAction ["api", "600", "A", "false", "203.0.113.1"])).cmd =
      .updateRR ["api", "600", "A", "false", "203.0.113.1"]) :=
  ⟨rfl, rfl, rfl, rfl, by decide, by decide, by decide, by decide, by decide,
    by decide,
    c9_rename_leaves_cache_unchanged editSaveModel "example.com"
      [⟨"rec1", "www", 300, "A", false, "198.51.100.5"⟩]
      ["api", "600", "A", "false", "203.0.113.1"] 0
      rfl rfl rfl rfl (by decide) (by decide) (by decide) (by decide)
      (by decide) (by decide)⟩

/-! ## Provider errors inside deferred tasks (claim C3) -/

/-- **C3 (counterexample)**: a failed record-set fetch does NOT leave the
cache untouched: the task stores the empty record set the provider returned
alongside the error, wiping the existing entry for "example.com". -/
theorem c3_counterexample_fetch_error_overwrites_cache :
    cacheLookup (runFetchRRSet editSaveModel "example.com"
        (Except.error ())).1.rrsetCache "example.com" = some [] ∧
    cacheLookup editSaveModel.rrsetCache "example.com" =
      some [⟨"rec1", "www", 300, "A", false, "198.51.100.5"⟩] := by
  constructor
  · decide
  · decide

/-- **C3 (amended)**: provider errors inside deferred tasks are always
swallowed — no error is ever surfaced. For the update and create tasks an
error leaves the model untouched and enqueues nothing; and whenever the
popup deactivates during delegation, the main model drops the
popup-showing flag in that same step, before any provider task runs, so
the popup closes regardless of the later outcome. The record-set
fetch/reload task, however, stores the provider's returned (empty) record
set into the cache even on error and still reports completion — so the
cache (and hence the Records table derived from it) IS overwritten on
fetch failures. -/
theorem c3_task_error_behaviour :
    (∀ (m : Model) (fields : List String),
      runUpdateRR m fields (Except.error ()) = (m, none)) ∧
    (∀ (m : Model) (fields : List String),
      runCreateRR m fields (Except.error ()) = (m, none)) ∧
    (∀ (m : Model) (zone : String),
      (runFetchRRSet m zone (Except.error ())).1.rrsetCache =
        cacheInsert m.rrsetCache zone [] ∧
      (runFetchRRSet m zone (Except.error ())).2 = some .dataLoaded) ∧
    (∀ (m : Model) (msg : Msg), m.showPopup = true →
      (popupUpdate m.popup msg).1.isActive = false →
      (mainUpdate m msg).model.showPopup = false) := by
  refine ⟨?_, ?_, ?_, ?_⟩
  · intro m fields
    unfold runUpdateRR
    split <;> rfl
  · intro m fields
    unfold runCreateRR
    split <;> rfl
  · intro m zone
    exact ⟨rfl, rfl⟩
  · intro m msg hsp hia
    unfold mainUpdate
    rw [if_pos hsp]
    dsimp only
    rw [if_pos (by simp [hia])]

/-! ## Record creation flow (claim C6) -/

/-- **C6**: in create mode, nothing is appended until the provider
succeeds, and exactly the provider's record is appended. Pressing `c` with
the Records table focused opens the popup titled "Resource record
creation" with initial fields `["", "3600", "A", "false", ""]` in creating
mode; a failed AddRR leaves the model untouched and enqueues nothing (so
neither cache nor table changes); a successful AddRR enqueues
`recordCreatedMsg` with the provider's record, and processing that message
appends exactly that record to the selected zone's cache entry and its row
to the Records table. -/
theorem c6_create_flow (m : Model) (r : DNSRecord) (fields : List String)
    (hsp : m.showPopup = false)
    (hfoc : m.rrsetTable.focused = true)
    (hzlen : 0 < m.zonesTable.selectedRow.length) :
    ((mainUpdate m (.key ⟨.runes, "c"⟩)).model.popup =
        popupNew ["Name", "TTL", "Type", "Proxied", "Content"]
          ["", "3600", "A", "false", ""] "Resource record creation" ∧
      (mainUpdate m (.key ⟨.runes, "c"⟩)).model.creating = true ∧
      (mainUpdate m (.key ⟨.runes, "c"⟩)).model.showPopup = true) ∧
    runCreateRR m fields (Except.error ()) = (m, none) ∧
    runCreateRR m fields (Except.ok r) = (m, some (.recordCreated r)) ∧
    ((mainUpdate m (.recordCreated r)).model.rrsetTable.rows =
      m.rrsetTable.rows ++ [recordRow r] ∧
    cacheLookup (mainUpdate m (.recordCreated r)).model.rrsetCache
        (m.zonesTable.selectedRow.getD 0 "") =
      some (((cacheLookup m.rrsetCache
        (m.zonesTable.selectedRow.getD 0 "")).getD []) ++ [r])) := by
  have hopen : mainUpdate m (.key ⟨.runes, "c"⟩) =
      ⟨openCreate m, .none, false⟩ := by
    unfold mainUpdate
    rw [if_neg (by simp [hsp])]
    dsimp only
    unfold mainUpdateKey
    dsimp only
    rw [show keyString ⟨.runes, "c"⟩ = "c" from rfl]
    rw [if_neg (by decide), if_neg (by decide), if_neg (by decide),
      if_pos rfl]
    rfl
  have hcreate : (mainUpdate m (.recordCreated r)).model.rrsetTable.rows =
        m.rrsetTable.rows ++ [recordRow r] ∧
      cacheLookup (mainUpdate m (.recordCreated r)).model.rrsetCache
          (m.zonesTable.selectedRow.getD 0 "") =
        some (((cacheLookup m.rrsetCache
          (m.zonesTable.selectedRow.getD 0 "")).getD []) ++ [r]) := by
    unfold mainUpdate
    rw [if_neg (by simp [hsp])]
    dsimp only
    rw [if_pos hzlen]
    dsimp only
    constructor
    · rfl
    · have hmg : (match cacheLookup m.rrsetCache
            (m.zonesTable.selectedRow.getD 0 "") with
          | some rs => rs
          | Option.none => ([] : List DNSRecord)) =
          (cacheLookup m.rrsetCache (m.zonesTable.selectedRow.getD 0 "")).getD [] := by
        cases cacheLookup m.rrsetCache (m.zonesTable.selectedRow.getD 0 "") <;> rfl
      rw [hmg]
      exact cacheLookup_insert _ _ _
  refine ⟨?_, ?_, ?_, hcreate⟩
  · rw [hopen]
    unfold openCreate
    rw [if_pos hfoc]
    exact ⟨rfl, rfl, rfl⟩
  · unfold runCreateRR
    rw [if_neg (by omega)]
  · unfold runCreateRR
    rw [if_neg (by omega)]

/-- **C6 (witness)**: the create-flow theorem at `editSaveModel` with a
concrete provider-returned record. -/
theorem c6_witness :
    editSaveModel.showPopup = false ∧
    editSaveModel.rrsetTable.focused = true ∧
    0 < editSaveModel.zonesTable.selectedRow.length ∧
    (((mainUpdate editSaveModel (.key ⟨.runes, "c"⟩)).model.popup =
        popupNew ["Name", "TTL", "Type", "Proxied", "Content"]
          ["", "3600", "A", "false", ""] "Resource record creation" ∧
      (mainUpdate editSaveModel (.key ⟨.runes, "c"⟩)).model.creating = true ∧
      (mainUpdate editSaveModel (.key ⟨.runes, "c"⟩)).model.showPopup = true) ∧
    runCreateRR editSaveModel ["api", "3600", "A", "false", "203.0.113.9"]
        (Except.error ()) = (editSaveModel, none) ∧
    runCreateRR editSaveModel ["api", "3600", "A", "false", "203.0.113.9"]
        (Except.ok ⟨"rec2", "api", 3600, "A", false, "203.0.113.9"⟩) =
      (editSaveModel, some (.recordCreated
        ⟨"rec2", "api", 3600, "A", false, "203.0.113.9"⟩)) ∧
    ((mainUpdate editSaveModel (.recordCreated
        ⟨"rec2", "api", 3600, "A", false, "203.0.113.9"⟩)).model.rrsetTable.rows =
      editSaveModel.rrsetTable.rows ++
        [recordRow ⟨"rec2", "api", 3600, "A", false, "203.0.113.9"⟩] ∧
    cacheLookup (mainUpdate editSaveModel (.recordCreated
        ⟨"rec2", "api", 3600, "A", false, "203.0.113.9"⟩)).model.rrsetCache
        (editSaveModel.zonesTable.selectedRow.getD 0 "") =
      some (((cacheLookup editSaveModel.rrsetCache
        (editSaveModel.zonesTable.selectedRow.getD 0 "")).getD []) ++
        [⟨"rec2", "api", 3600, "A", false, "203.0.113.9"⟩]))) :=
  ⟨rfl, rfl, by decide,
    c6_create_flow editSaveModel
      ⟨"rec2", "api", 3600, "A", false, "203.0.113.9"⟩
      ["api", "3600", "A", "false", "203.0.113.9"]
      rfl rfl (by decide)⟩

end Cdnscli
